import Mathlib

/-!
# ANCwithBoost: internal-model controller and sample-synchronised control loop

Shallow embedding of `hardware_test/distRejTemplate.cpp` (class `DefaultController`,
function `defaultController`, the two loops of `main`) and of the disturbance
formulas of `simulation/second_order_simulator.cpp`.

Arithmetic. `float64`/`float` values are modelled by the elements of a linear
ordered field `α`; all theorems are stated for `α = ℝ`, that is, for exact
arithmetic without rounding, NaN or infinities.  The `<cmath>` functions `sqrt`
and `sin` are passed as parameters of the definitions (so that the definitions
stay computable) and are instantiated with `Real.sqrt` and `Real.sin` in the
theorems.

Library code.  `boost::numeric::odeint::runge_kutta_dopri5` and the NI-DAQmx
driver are libraries, not files of the repository.  The stepper is written out
from the Boost.Odeint headers (`explicit_error_stepper_fsal_base::do_step` and
`runge_kutta_dopri5::do_step_impl`); the driver is an arbitrary environment
`Device` that answers every call with a status code and, for reads, a block.
-/

namespace distRejTemplate

variable {α : Type} [LinearOrderedField α]

/-- Source: `#define PI 3.1415926535`. -/
def PI : α := 3.1415926535

/-- Source: `typedef std::vector<double> state_type`; the controller sizes every state
vector to six entries (`w(6)`), of which `equations` reads and writes entries 0 and 1. -/
abbrev state_type (α : Type) := Fin 6 → α

/-- Euclidean norm of an `Eigen::Vector2d` (`norm()` is the square root of the sum of the
squared coefficients). -/
def Vector2d.norm (sqrt : α → α) (v : α × α) : α :=
  sqrt (v.1 * v.1 + v.2 * v.2)

/-- Member data of `boost::numeric::odeint::runge_kutta_dopri5<state_type>` that survives
between two calls of `do_step`: the first-call flag and the cached derivative of the
first-same-as-last base class, and the stage buffers.  Buffers are created by
`std::vector::resize`, which fills them with zeros. -/
structure runge_kutta_dopri5 (α : Type) where
  m_first_call : Bool
  m_dxdt : state_type α
  m_k2 : state_type α
  m_k3 : state_type α
  m_k4 : state_type α
  m_k5 : state_type α
  m_k6 : state_type α

/-- Default-constructed stepper: `m_first_call = true`, zero-filled buffers. -/
def runge_kutta_dopri5.construct : runge_kutta_dopri5 α :=
  { m_first_call := true
    m_dxdt := fun _ => 0
    m_k2 := fun _ => 0
    m_k3 := fun _ => 0
    m_k4 := fun _ => 0
    m_k5 := fun _ => 0
    m_k6 := fun _ => 0 }

/-- Stage computation `runge_kutta_dopri5::do_step_impl(system, in, dxdt_in, t, out, dxdt_out, dt)`
of Boost.Odeint, called in place (`out` aliases `in`, `dxdt_out` aliases `dxdt_in`).
`sys x dxdt t` is the system function: it receives the state, the buffer it writes the
derivative into, and the time, and returns the buffer after the call.
Returns the stepper after the call and the new state `out`. -/
def runge_kutta_dopri5.do_step_impl (st : runge_kutta_dopri5 α)
    (sys : state_type α → state_type α → α → state_type α)
    (x : state_type α) (dxdt_in : state_type α) (t dt : α) :
    runge_kutta_dopri5 α × state_type α :=
  let a2 : α := 1 / 5
  let a3 : α := 3 / 10
  let a4 : α := 4 / 5
  let a5 : α := 8 / 9
  let b21 : α := 1 / 5
  let b31 : α := 3 / 40
  let b32 : α := 9 / 40
  let b41 : α := 44 / 45
  let b42 : α := -56 / 15
  let b43 : α := 32 / 9
  let b51 : α := 19372 / 6561
  let b52 : α := -25360 / 2187
  let b53 : α := 64448 / 6561
  let b54 : α := -212 / 729
  let b61 : α := 9017 / 3168
  let b62 : α := -355 / 33
  let b63 : α := 46732 / 5247
  let b64 : α := 49 / 176
  let b65 : α := -5103 / 18656
  let c1 : α := 35 / 384
  let c3 : α := 500 / 1113
  let c4 : α := 125 / 192
  let c5 : α := -2187 / 6784
  let c6 : α := 11 / 84
  let x_tmp2 : state_type α := fun i => 1 * x i + dt * b21 * dxdt_in i
  let k2 := sys x_tmp2 st.m_k2 (t + dt * a2)
  let x_tmp3 : state_type α := fun i => 1 * x i + dt * b31 * dxdt_in i + dt * b32 * k2 i
  let k3 := sys x_tmp3 st.m_k3 (t + dt * a3)
  let x_tmp4 : state_type α := fun i =>
    1 * x i + dt * b41 * dxdt_in i + dt * b42 * k2 i + dt * b43 * k3 i
  let k4 := sys x_tmp4 st.m_k4 (t + dt * a4)
  let x_tmp5 : state_type α := fun i =>
    1 * x i + dt * b51 * dxdt_in i + dt * b52 * k2 i + dt * b53 * k3 i + dt * b54 * k4 i
  let k5 := sys x_tmp5 st.m_k5 (t + dt * a5)
  let x_tmp6 : state_type α := fun i =>
    1 * x i + dt * b61 * dxdt_in i + dt * b62 * k2 i + dt * b63 * k3 i + dt * b64 * k4 i
      + dt * b65 * k5 i
  let k6 := sys x_tmp6 st.m_k6 (t + dt)
  let out : state_type α := fun i =>
    1 * x i + dt * c1 * dxdt_in i + dt * c3 * k3 i + dt * c4 * k4 i + dt * c5 * k5 i
      + dt * c6 * k6 i
  let dxdt_out := sys out dxdt_in (t + dt)
  ({ m_first_call := st.m_first_call
     m_dxdt := dxdt_out
     m_k2 := k2
     m_k3 := k3
     m_k4 := k4
     m_k5 := k5
     m_k6 := k6 }, out)

/-- Boost.Odeint `do_step(System system, StateInOut &x, time_type t, time_type dt)` of the
first-same-as-last base class: the state `x` is passed by reference and overwritten, the
time `t` and the step `dt` are passed by value.  On the first call the derivative at `x` is
evaluated and the flag cleared; on later calls the derivative cached at the end of the
previous step is reused as the first stage.  Returns the stepper after the call and the new
contents of `x`. -/
def runge_kutta_dopri5.do_step (st : runge_kutta_dopri5 α)
    (sys : state_type α → state_type α → α → state_type α)
    (x : state_type α) (t dt : α) : runge_kutta_dopri5 α × state_type α :=
  let st1 : runge_kutta_dopri5 α :=
    if st.m_first_call then { st with m_dxdt := sys x st.m_dxdt t, m_first_call := false }
    else st
  st1.do_step_impl sys x st1.m_dxdt t dt

/-- Source: `class DefaultController`, its data members.  `G` is the 2x1 matrix `(g1, g2)`. -/
structure DefaultController (α : Type) where
  out : α
  tw : α
  w_star_ : α
  dt_ : α
  bound_ : α
  G : α × α
  w : state_type α
  stepper : runge_kutta_dopri5 α

namespace DefaultController

/-- Source: the constructor `DefaultController(w_star, g1, g2, dt, bound = 3.95)`:
`w(6)` is zero-filled, `tw = 0`, `out = 0`, `w[0] = w[1] = 0`, `G << g1, g2`. -/
def construct (w_star g1 g2 dt bound : α) : DefaultController α :=
  { out := 0
    tw := 0
    w_star_ := w_star
    dt_ := dt
    bound_ := bound
    G := (g1, g2)
    w := Function.update (Function.update (fun _ => 0) 0 0) 1 0
    stepper := runge_kutta_dopri5.construct }

/-- Source: lines 58-63 of `equations`, the vector `w_hat` that enters the dynamics:
`w_hat << y[0], y[1]; if (w_hat.norm() >= bound_) w_hat = w_hat / w_hat.norm() * bound_;`. -/
def w_hat (sqrt : α → α) (c : DefaultController α) (y : state_type α) : α × α :=
  let w_hat : α × α := (y 0, y 1)
  if Vector2d.norm sqrt w_hat ≥ c.bound_ then
    (w_hat.1 / Vector2d.norm sqrt w_hat * c.bound_, w_hat.2 / Vector2d.norm sqrt w_hat * c.bound_)
  else
    w_hat

/-- Source: `void equations(const state_type &y, state_type &dy, double _x)`.
`S << 0, w_star_, -w_star_, 0`; `dot_w_hat = S * w_hat + G * out`; only `dy[0]` and `dy[1]`
are assigned, the other entries of `dy` keep their values.  Returns `dy` after the call. -/
def equations (sqrt : α → α) (c : DefaultController α) (y dy : state_type α) (_x : α) :
    state_type α :=
  let S : (α × α) × (α × α) := ((0, c.w_star_), (-c.w_star_, 0))
  let w_hat := c.w_hat sqrt y
  let dot_w_hat : α × α :=
    (S.1.1 * w_hat.1 + S.1.2 * w_hat.2 + c.G.1 * c.out,
     S.2.1 * w_hat.1 + S.2.2 * w_hat.2 + c.G.2 * c.out)
  Function.update (Function.update dy 0 dot_w_hat.1) 1 dot_w_hat.2

/-- Source: `void setInput(float64 y) { out = y; }`. -/
def setInput (c : DefaultController α) (y : α) : DefaultController α :=
  { c with out := y }

/-- Source: `float64 computeOutput()`: `stepper.do_step(func, w, tw, dt_); return w[0];`
where `func` is `equations` bound to this controller.  Returns the controller after the
call and the returned value. -/
def computeOutput (sqrt : α → α) (c : DefaultController α) : DefaultController α × α :=
  let func := c.equations sqrt
  let r := c.stepper.do_step func c.w c.tw c.dt_
  ({ c with w := r.2, stepper := r.1 }, r.2 0)

end DefaultController

/-- Source: `void defaultController(void *ptr_controller, const float64 &y, float64 &u)`:
`ptr->setInput(y); u = ptr->computeOutput();`.  Returns the controller after the call and
the value stored in `u`. -/
def defaultController (sqrt : α → α) (c : DefaultController α) (y : α) :
    DefaultController α × α :=
  (c.setInput y).computeOutput sqrt

/-- A finite sequence of control ticks: for every input `y` of the list, in order,
`setInput(y)` followed by `computeOutput()`.  Returns the controller after the last tick. -/
def ticks (sqrt : α → α) (c : DefaultController α) (ys : List α) : DefaultController α :=
  ys.foldl (fun acc y => (defaultController sqrt acc y).1) c

/-- Source: `struct datapack_t`, the recorded sequences (`push_back` appends at the end). -/
structure datapack_t (α : Type) where
  t : List α
  y : List α
  d : List α
  u : List α
  phi : List α

/-- The constants of `main` that fix the loop geometry: `samplesPerChan`, `sampleFs`,
`dist_freq`, `runTime`, `warmUp`. -/
structure Config (α : Type) where
  samplesPerChan : Nat
  sampleFs : α
  dist_freq : α
  runTime : α
  warmUp : α

/-- Source: `samplesPerChan = 100`, `sampleFs = 5000.0`, `dist_freq = 35.0`, `runTime = 30`,
`warmUp = 1.0`. -/
def Config.shipped : Config α :=
  { samplesPerChan := 100
    sampleFs := 5000.0
    dist_freq := 35.0
    runTime := 30
    warmUp := 1.0 }

/-- The NI-DAQmx driver as seen by `main`: `setup` is the status of the configuration,
initial write and start calls (lines 134-152: the first failing status, or a non-negative
value when all succeed); `write k` is the status returned by the block write of outer
iteration `k` (counted across both loops) and `read k` the status and the samples returned by
the block read of that iteration. -/
structure Device (α : Type) where
  setup : Int
  write : Nat → Int
  read : Nat → Int × (Nat → α)

/-- NI-DAQmx header: `#define DAQmxFailed(error) ((error) < 0)`. -/
def DAQmxFailed (error : Int) : Bool :=
  decide (error < 0)

/-- A run without device error: every driver call returns a non-negative status. -/
def Device.noError (dev : Device α) : Prop :=
  0 ≤ dev.setup ∧ ∀ k, 0 ≤ dev.write k ∧ 0 ≤ (dev.read k).1

/-- A driver whose calls all succeed and whose reads return zero samples. -/
def Device.silent : Device α :=
  { setup := 0
    write := fun _ => 0
    read := fun _ => (0, fun _ => 0) }

/-- A driver whose calls all succeed and whose reads return zero samples in the outer
iterations before `k` and the constant sample `v` from iteration `k` on. -/
def Device.silentUntil (k : Nat) (v : α) : Device α :=
  { setup := 0
    write := fun _ => 0
    read := fun j => (0, fun _ => if j < k then 0 else v) }

/-- Sample `i` of the block that `read_origin` holds at the start of outer iteration `k` of
an error-free run: the zero-initialised buffer for `k = 0`, the block returned by the read
at the end of iteration `k - 1` otherwise. -/
def lastBlock (dev : Device α) (k : Nat) (i : Nat) : α :=
  match k with
  | 0 => 0
  | j + 1 => (dev.read j).2 i

/-- Local variables of `main` that the loops use, and two observation fields: `blocks`
counts the completed write/read pairs (it selects the answer of the `Device`), `written`
lists the buffers handed to the block writes of the loops. -/
structure MainState (α : Type) where
  error : Int
  write_origin : Nat → α
  read_origin : Nat → α
  data : datapack_t α
  index : Int
  globalTime : α
  controller : DefaultController α
  blocks : Nat
  written : List (Nat → α)

/-- Source: lines 98-129 of `main`: zero-filled buffers, empty record, `index = 0`,
`globalTime = 0`, `DefaultController controller(21.5 * 2 * PI, -30.0, 0.0, 1.0 / sampleFs)`
with the default `bound = 3.95`. -/
def MainState.initial (cfg : Config α) : MainState α :=
  { error := 0
    write_origin := fun _ => 0
    read_origin := fun _ => 0
    data := { t := [], y := [], d := [], u := [], phi := [] }
    index := 0
    globalTime := 0
    controller := DefaultController.construct (21.5 * 2 * PI) (-30.0) 0.0 (1.0 / cfg.sampleFs) 3.95
    blocks := 0
    written := [] }

/-- Source: line 160, the disturbance of the warm-up loop. -/
def warmUp_d (sin : α → α) (cfg : Config α) (globalTime : α) : α :=
  1.5 * sin (globalTime * cfg.dist_freq * 2 * PI)

/-- Source: line 186, the disturbance of the active loop. -/
def active_d (sin : α → α) (cfg : Config α) (globalTime : α) : α :=
  1.5 * sin (globalTime * cfg.dist_freq * 2 * PI)

/-- Source: lines 160-173, the body of the inner loop of the warm-up phase for sample `i`.
`writeChan0[i]` is `write_origin[i]`, `writeChan1[i]` is `write_origin[samplesPerChan + i]`. -/
def warmUpSample (sin : α → α) (cfg : Config α) (i : Nat) (s : MainState α) : MainState α :=
  let d := warmUp_d sin cfg s.globalTime
  let u : α := 0
  let y := s.read_origin i * 8000 - 1.7
  { s with
    data :=
      { s.data with
        t := s.data.t ++ [s.globalTime]
        d := s.data.d ++ [d]
        u := s.data.u ++ [u]
        y := s.data.y ++ [y] }
    write_origin :=
      Function.update (Function.update s.write_origin i d) (cfg.samplesPerChan + i) u
    index := s.index + 1
    globalTime := s.globalTime + 1 / cfg.sampleFs }

/-- Source: lines 186-201, the body of the inner loop of the active phase for sample `i`:
as in the warm-up, with `defaultController(&controller, y, u)` before the record is made. -/
def activeSample (sqrt sin : α → α) (cfg : Config α) (i : Nat) (s : MainState α) :
    MainState α :=
  let d := active_d sin cfg s.globalTime
  let y := s.read_origin i * 8000 - 1.7
  let r := defaultController sqrt s.controller y
  let u := r.2
  { s with
    controller := r.1
    data :=
      { s.data with
        t := s.data.t ++ [s.globalTime]
        d := s.data.d ++ [d]
        u := s.data.u ++ [u]
        y := s.data.y ++ [y] }
    write_origin :=
      Function.update (Function.update s.write_origin i d) (cfg.samplesPerChan + i) u
    index := s.index + 1
    globalTime := s.globalTime + 1 / cfg.sampleFs }

/-- Source: `for (int i = 0; i < samplesPerChan; i++) { ... }`, the inner loop of either
phase with per-sample body `sample`. -/
def sampleLoop (cfg : Config α) (sample : Nat → MainState α → MainState α)
    (s : MainState α) : MainState α :=
  (List.range cfg.samplesPerChan).foldl (fun acc i => sample i acc) s

/-- Source: the two driver calls that end every outer iteration,
`DAQmxErrChk(DAQmxWriteAnalogF64(.., samplesPerChan, .., write_origin, ..))` and
`DAQmxErrChk(DAQmxReadAnalogF64(.., samplesPerChan, .., read_origin, ..))`.  `DAQmxErrChk`
stores the status in `error` and leaves the loop when it is negative.  A successful read
overwrites the first `samplesPerChan` entries of `read_origin`. -/
def blockTransfer (cfg : Config α) (dev : Device α) (s : MainState α) : MainState α :=
  let s1 := { s with error := dev.write s.blocks, written := s.written ++ [s.write_origin] }
  if DAQmxFailed s1.error then s1
  else
    let r := dev.read s.blocks
    let s2 := { s1 with error := r.1 }
    if DAQmxFailed s2.error then s2
    else
      { s2 with
        read_origin := fun i => if i < cfg.samplesPerChan then r.2 i else s.read_origin i
        blocks := s.blocks + 1 }

/-- Source: `for (int i = 0; i < limit; i++) { inner loop; write; read; }` with a
floating-point `limit`, the shape of both outer loops of `main`; a failed driver call jumps
to the label `Error` behind the loops.  The `int` counter is a natural number here (no
wrap-around is modelled) and is compared with the limit as a real number. -/
def blockLoop [FloorSemiring α] (cfg : Config α) (dev : Device α)
    (sample : Nat → MainState α → MainState α) (limit : α) (i : Nat) (s : MainState α) :
    MainState α :=
  if h : (i : α) < limit then
    let s1 := blockTransfer cfg dev (sampleLoop cfg sample s)
    if DAQmxFailed s1.error then s1 else blockLoop cfg dev sample limit (i + 1) s1
  else s
termination_by Nat.ceil limit - i
decreasing_by
  have hlt : i < Nat.ceil limit := Nat.lt_ceil.mpr h
  omega

/-- One outer iteration as a state transformer that does nothing once a driver call has
failed.  `blockLoop` is the iteration of this step, see `blockLoop_eq_iterate`. -/
def blockStep (cfg : Config α) (dev : Device α)
    (sample : Nat → MainState α → MainState α) (s : MainState α) : MainState α :=
  if DAQmxFailed s.error then s else blockTransfer cfg dev (sampleLoop cfg sample s)

/-- What the two per-sample bodies have in common: a sample leaves `error`, `blocks`,
`written` and `read_origin` alone and appends exactly one entry to each of the four recorded
sequences, the entry of `y` being `read_origin[i] * 8000 - 1.7`. -/
def RecordsOne (sample : Nat → MainState α → MainState α) : Prop :=
  ∀ (i : Nat) (s : MainState α),
    (sample i s).error = s.error ∧ (sample i s).blocks = s.blocks ∧
    (sample i s).written = s.written ∧ (sample i s).read_origin = s.read_origin ∧
    (sample i s).data.y = s.data.y ++ [s.read_origin i * 8000 - 1.7] ∧
    (∃ a, (sample i s).data.t = s.data.t ++ [a]) ∧
    (∃ a, (sample i s).data.d = s.data.d ++ [a]) ∧
    (∃ a, (sample i s).data.u = s.data.u ++ [a])

/-- Relation between the states `s`, `s'` of two runs, used to compare runs on devices that
agree on the outer iterations before `k`, for one recorded sequence `X`: either the states
are equal (and stopped by an error, or not beyond iteration `k` with `blocks` full blocks
recorded), or both records already hold the first `(k + 1) * samplesPerChan` entries and
agree on them. -/
def Lockstep (cfg : Config α) (k : Nat) (X : datapack_t α → List α)
    (s s' : MainState α) : Prop :=
  (s = s' ∧ (DAQmxFailed s.error = true ∨
      (s.blocks ≤ k ∧ (X s.data).length = s.blocks * cfg.samplesPerChan))) ∨
  ((k + 1) * cfg.samplesPerChan ≤ (X s.data).length ∧
    (k + 1) * cfg.samplesPerChan ≤ (X s'.data).length ∧
    (X s.data).take ((k + 1) * cfg.samplesPerChan)
      = (X s'.data).take ((k + 1) * cfg.samplesPerChan))

/-- Source: the warm-up phase, `for (int i = 0; i < warmUp * sampleFs / samplesPerChan; i++)`. -/
def warmUpPhase [FloorSemiring α] (sin : α → α) (cfg : Config α) (dev : Device α)
    (s : MainState α) : MainState α :=
  blockLoop cfg dev (warmUpSample sin cfg)
    (cfg.warmUp * cfg.sampleFs / (cfg.samplesPerChan : α)) 0 s

/-- Source: the active phase, `for (int i = 0; i < runTime * sampleFs / samplesPerChan; i++)`. -/
def activePhase [FloorSemiring α] (sqrt sin : α → α) (cfg : Config α) (dev : Device α)
    (s : MainState α) : MainState α :=
  blockLoop cfg dev (activeSample sqrt sin cfg)
    (cfg.runTime * cfg.sampleFs / (cfg.samplesPerChan : α)) 0 s

/-- State of `main` when the warm-up loop is left (by completion or by a driver error). -/
def afterWarmUp [FloorSemiring α] (sin : α → α) (cfg : Config α) (dev : Device α) :
    MainState α :=
  let s1 := { MainState.initial cfg with error := dev.setup }
  if DAQmxFailed s1.error then s1 else warmUpPhase sin cfg dev s1

/-- Source: `int main(void)` up to the label `Error`; the code behind the label stops the
task and packs `data` unchanged.  Returns the state with the record that is written out. -/
def main [FloorSemiring α] (sqrt sin : α → α) (cfg : Config α) (dev : Device α) :
    MainState α :=
  let s2 := afterWarmUp sin cfg dev
  if DAQmxFailed s2.error then s2 else activePhase sqrt sin cfg dev s2

end distRejTemplate

namespace second_order_simulator

variable {α : Type} [LinearOrderedField α]

/-- Source: line 65 of `simulation/second_order_simulator.cpp`, the disturbance of the
warm-up loop, `2.0 * sin(globalTime * dist_freq * M_2_PI)`; `M_2_PI` is the `<cmath>`
constant two over pi. -/
def warmUp_d (sin : α → α) (M_2_PI dist_freq globalTime : α) : α :=
  2.0 * sin (globalTime * dist_freq * M_2_PI)

/-- Source: line 92 of `simulation/second_order_simulator.cpp`, the disturbance of the
active loop, `2.0 * sin(globalTime * dist_freq * 2 * PI)`; `PI` comes from a header that is
not among the sources and is a parameter here. -/
def active_d (sin : α → α) (PI dist_freq globalTime : α) : α :=
  2.0 * sin (globalTime * dist_freq * 2 * PI)

end second_order_simulator

/-! ## The derivative function `DefaultController::equations` -/

namespace distRejTemplate

open DefaultController

theorem Vector2d.norm_nonneg (v : ℝ × ℝ) : 0 ≤ Vector2d.norm Real.sqrt v :=
  Real.sqrt_nonneg _

theorem Vector2d.norm_mul_self (v : ℝ × ℝ) :
    Vector2d.norm Real.sqrt v * Vector2d.norm Real.sqrt v = v.1 * v.1 + v.2 * v.2 :=
  Real.mul_self_sqrt (add_nonneg (mul_self_nonneg _) (mul_self_nonneg _))

/-- Rescaling a non-zero vector to length `b` gives a vector of norm `b`. -/
theorem Vector2d.norm_rescale (v : ℝ × ℝ) (b : ℝ) (hb : 0 ≤ b)
    (hn : 0 < Vector2d.norm Real.sqrt v) :
    Vector2d.norm Real.sqrt
      (v.1 / Vector2d.norm Real.sqrt v * b, v.2 / Vector2d.norm Real.sqrt v * b) = b := by
  have hsq := Vector2d.norm_mul_self v
  set n := Vector2d.norm Real.sqrt v with hn_def
  have hne : n ≠ 0 := ne_of_gt hn
  have key : v.1 / n * b * (v.1 / n * b) + v.2 / n * b * (v.2 / n * b) = b * b := by
    field_simp
    nlinarith [hsq]
  show Real.sqrt (v.1 / n * b * (v.1 / n * b) + v.2 / n * b * (v.2 / n * b)) = b
  rw [key]
  exact Real.sqrt_mul_self hb

theorem w_hat_of_lt (c : DefaultController ℝ) (y : state_type ℝ)
    (h : Vector2d.norm Real.sqrt (y 0, y 1) < c.bound_) :
    c.w_hat Real.sqrt y = (y 0, y 1) := by
  simp [w_hat, not_le.mpr h]

theorem w_hat_of_ge (c : DefaultController ℝ) (y : state_type ℝ)
    (h : c.bound_ ≤ Vector2d.norm Real.sqrt (y 0, y 1)) :
    c.w_hat Real.sqrt y =
      (y 0 / Vector2d.norm Real.sqrt (y 0, y 1) * c.bound_,
       y 1 / Vector2d.norm Real.sqrt (y 0, y 1) * c.bound_) := by
  simp [w_hat, h]

theorem norm_w_hat_le (c : DefaultController ℝ) (y : state_type ℝ) (hb : 0 < c.bound_) :
    Vector2d.norm Real.sqrt (c.w_hat Real.sqrt y) ≤ c.bound_ := by
  rcases lt_or_le (Vector2d.norm Real.sqrt (y 0, y 1)) c.bound_ with h | h
  · rw [w_hat_of_lt c y h]
    exact le_of_lt h
  · rw [w_hat_of_ge c y h]
    exact le_of_eq
      (Vector2d.norm_rescale (y 0, y 1) c.bound_ (le_of_lt hb) (lt_of_lt_of_le hb h))

theorem equations_zero (c : DefaultController ℝ) (y dy : state_type ℝ) (x : ℝ) :
    c.equations Real.sqrt y dy x 0
      = c.w_star_ * (c.w_hat Real.sqrt y).2 + c.G.1 * c.out := by
  simp [equations]

theorem equations_one (c : DefaultController ℝ) (y dy : state_type ℝ) (x : ℝ) :
    c.equations Real.sqrt y dy x 1
      = -c.w_star_ * (c.w_hat Real.sqrt y).1 + c.G.2 * c.out := by
  simp [equations]

/-- C1. Saturation invariant of `DefaultController::equations`: for every state `y` and
every bound greater than zero, the vector `w_hat` that enters the dynamics has norm at most
the bound; it is `(y[0], y[1])` when the norm of `y` is below the bound and
`y / norm y * bound` otherwise. -/
theorem C1_saturation_invariant (c : DefaultController ℝ) (y : state_type ℝ)
    (hb : 0 < c.bound_) :
    Vector2d.norm Real.sqrt (c.w_hat Real.sqrt y) ≤ c.bound_ ∧
    (Vector2d.norm Real.sqrt (y 0, y 1) < c.bound_ → c.w_hat Real.sqrt y = (y 0, y 1)) ∧
    (¬ Vector2d.norm Real.sqrt (y 0, y 1) < c.bound_ →
      c.w_hat Real.sqrt y =
        (y 0 / Vector2d.norm Real.sqrt (y 0, y 1) * c.bound_,
         y 1 / Vector2d.norm Real.sqrt (y 0, y 1) * c.bound_)) :=
  ⟨norm_w_hat_le c y hb, w_hat_of_lt c y, fun h => w_hat_of_ge c y (not_lt.mp h)⟩

/-- C1, instance: the shipped controller (bound 3.95) at the state `(3, 4)` of norm 5. -/
theorem C1_saturation_invariant_witness :
    (0 : ℝ) < (construct (21.5 * 2 * PI) (-30.0) 0.0 (1.0 / 5000) (3.95 : ℝ)).bound_ ∧
    Vector2d.norm Real.sqrt
        ((construct (21.5 * 2 * PI) (-30.0) 0.0 (1.0 / 5000) (3.95 : ℝ)).w_hat Real.sqrt
          ![3, 4, 0, 0, 0, 0])
      ≤ (construct (21.5 * 2 * PI) (-30.0) 0.0 (1.0 / 5000) (3.95 : ℝ)).bound_ :=
  ⟨by norm_num [construct],
    (C1_saturation_invariant (construct (21.5 * 2 * PI) (-30.0) 0.0 (1.0 / 5000) (3.95 : ℝ))
      ![3, 4, 0, 0, 0, 0] (by norm_num [construct])).1⟩

/-- C2. `equations` computes `S * w_hat + G * out` with `S = [[0, w*], [-w*, 0]]`:
`dy[0] = w* * w_hat1 + g1 * out` and `dy[1] = -w* * w_hat0 + g2 * out`, where `w_hat` is the
radially saturated copy of `(y[0], y[1])`; the other entries of `dy` are left as they were.
The constructor stores its arguments `w_star` in `w_star_` and `(g1, g2)` in `G`. -/
theorem C2_equations_dynamics (c : DefaultController ℝ) (y dy : state_type ℝ) (x : ℝ)
    (w_star g1 g2 dt bound : ℝ) :
    c.equations Real.sqrt y dy x 0 = c.w_star_ * (c.w_hat Real.sqrt y).2 + c.G.1 * c.out ∧
    c.equations Real.sqrt y dy x 1 = -c.w_star_ * (c.w_hat Real.sqrt y).1 + c.G.2 * c.out ∧
    (∀ i : Fin 6, i ≠ 0 → i ≠ 1 → c.equations Real.sqrt y dy x i = dy i) ∧
    (construct w_star g1 g2 dt bound).w_star_ = w_star ∧
    (construct w_star g1 g2 dt bound).G = (g1, g2) := by
  refine ⟨equations_zero c y dy x, equations_one c y dy x, ?_, rfl, rfl⟩
  intro i h0 h1
  simp [equations, Function.update_noteq h1, Function.update_noteq h0]

/-! ## Zero input: orthogonality of the derivative, the resting controller -/


/-- With `out = 0` the derivative written by `equations` is orthogonal to the state. -/
theorem equations_orthogonal (c : DefaultController ℝ) (hout : c.out = 0)
    (y dy : state_type ℝ) (x : ℝ) :
    y 0 * c.equations Real.sqrt y dy x 0 + y 1 * c.equations Real.sqrt y dy x 1 = 0 := by
  rw [equations_zero, equations_one, hout]
  rcases lt_or_le (Vector2d.norm Real.sqrt (y 0, y 1)) c.bound_ with h | h
  · rw [w_hat_of_lt c y h]
    ring
  · rw [w_hat_of_ge c y h]
    ring

/-- Along a differentiable trajectory of the zero-input dynamics the squared norm of the
oscillator state is constant. -/
theorem sq_norm_const (c : DefaultController ℝ) (hout : c.out = 0)
    (w : ℝ → state_type ℝ) (dy : state_type ℝ)
    (h0 : ∀ t, HasDerivAt (fun s => w s 0) (c.equations Real.sqrt (w t) dy t 0) t)
    (h1 : ∀ t, HasDerivAt (fun s => w s 1) (c.equations Real.sqrt (w t) dy t 1) t)
    (t : ℝ) :
    w t 0 * w t 0 + w t 1 * w t 1 = w 0 0 * w 0 0 + w 0 1 * w 0 1 := by
  have hd : ∀ s, HasDerivAt (fun r => w r 0 * w r 0 + w r 1 * w r 1) 0 s := by
    intro s
    have e := ((h0 s).mul (h0 s)).add ((h1 s).mul (h1 s))
    have z : c.equations Real.sqrt (w s) dy s 0 * w s 0
        + w s 0 * c.equations Real.sqrt (w s) dy s 0
        + (c.equations Real.sqrt (w s) dy s 1 * w s 1
        + w s 1 * c.equations Real.sqrt (w s) dy s 1) = 0 := by
      have o := equations_orthogonal c hout (w s) dy s
      linarith
    rw [z] at e
    exact e
  exact is_const_of_deriv_eq_zero (fun s => (hd s).differentiableAt) (fun s => (hd s).deriv) t 0

/-- C8. Zero-input norm conservation: with stored input `out = 0`, for every state (inside
or outside the saturation ball), every `w*` and every bound greater than zero, the
derivative written by `equations` is orthogonal to the state, so that the norm of the
oscillator state is constant along every exact trajectory of the dynamics; inside the ball
the derivative is exactly `S(w*) * w`. -/
theorem C8_zero_input_norm_conservation (c : DefaultController ℝ) (hb : 0 < c.bound_)
    (hout : c.out = 0) :
    (∀ (y dy : state_type ℝ) (x : ℝ),
      y 0 * c.equations Real.sqrt y dy x 0 + y 1 * c.equations Real.sqrt y dy x 1 = 0) ∧
    (∀ (y dy : state_type ℝ) (x : ℝ), Vector2d.norm Real.sqrt (y 0, y 1) < c.bound_ →
      c.equations Real.sqrt y dy x 0 = c.w_star_ * y 1 ∧
      c.equations Real.sqrt y dy x 1 = -c.w_star_ * y 0) ∧
    (∀ (w : ℝ → state_type ℝ) (dy : state_type ℝ),
      (∀ t, HasDerivAt (fun s => w s 0) (c.equations Real.sqrt (w t) dy t 0) t) →
      (∀ t, HasDerivAt (fun s => w s 1) (c.equations Real.sqrt (w t) dy t 1) t) →
      ∀ t, Vector2d.norm Real.sqrt (w t 0, w t 1) = Vector2d.norm Real.sqrt (w 0 0, w 0 1)) := by
  have _ := hb
  refine ⟨equations_orthogonal c hout, ?_, ?_⟩
  · intro y dy x h
    rw [equations_zero, equations_one, w_hat_of_lt c y h, hout]
    constructor <;> ring
  · intro w dy h0 h1 t
    show Real.sqrt (w t 0 * w t 0 + w t 1 * w t 1) = Real.sqrt (w 0 0 * w 0 0 + w 0 1 * w 0 1)
    rw [sq_norm_const c hout w dy h0 h1 t]

/-- C8, instance: the freshly constructed shipped controller (`out = 0`, bound 3.95) at the
state `(3, 4)` outside the ball. -/
theorem C8_zero_input_norm_conservation_witness :
    (0 : ℝ) < (construct (21.5 * 2 * PI) (-30.0) 0.0 (1.0 / 5000) (3.95 : ℝ)).bound_ ∧
    (construct (21.5 * 2 * PI) (-30.0) 0.0 (1.0 / 5000) (3.95 : ℝ)).out = 0 ∧
    (3 : ℝ) * (construct (21.5 * 2 * PI) (-30.0) 0.0 (1.0 / 5000) (3.95 : ℝ)).equations
        Real.sqrt ![3, 4, 0, 0, 0, 0] (fun _ => 0) 0 0
      + 4 * (construct (21.5 * 2 * PI) (-30.0) 0.0 (1.0 / 5000) (3.95 : ℝ)).equations
        Real.sqrt ![3, 4, 0, 0, 0, 0] (fun _ => 0) 0 1 = 0 :=
  ⟨by norm_num [construct], rfl,
    (C8_zero_input_norm_conservation
      (construct (21.5 * 2 * PI) (-30.0) 0.0 (1.0 / 5000) (3.95 : ℝ))
      (by norm_num [construct]) rfl).1 ![3, 4, 0, 0, 0, 0] (fun _ => 0) 0⟩

/-! ## `computeOutput`: time cursor, stored state, resting controller -/


theorem computeOutput_tw (c : DefaultController ℝ) :
    (c.computeOutput Real.sqrt).1.tw = c.tw := rfl

theorem computeOutput_bound (c : DefaultController ℝ) :
    (c.computeOutput Real.sqrt).1.bound_ = c.bound_ := rfl

theorem computeOutput_out (c : DefaultController ℝ) :
    (c.computeOutput Real.sqrt).1.out = c.out := rfl

theorem ticks_nil (c : DefaultController ℝ) : ticks Real.sqrt c [] = c := rfl

theorem ticks_cons (c : DefaultController ℝ) (y : ℝ) (ys : List ℝ) :
    ticks Real.sqrt c (y :: ys) = ticks Real.sqrt (defaultController Real.sqrt c y).1 ys := rfl

theorem ticks_tw (c : DefaultController ℝ) (ys : List ℝ) :
    (ticks Real.sqrt c ys).tw = c.tw := by
  induction ys generalizing c with
  | nil => rfl
  | cons y ys ih => rw [ticks_cons, ih]; rfl

theorem ticks_bound (c : DefaultController ℝ) (ys : List ℝ) :
    (ticks Real.sqrt c ys).bound_ = c.bound_ := by
  induction ys generalizing c with
  | nil => rfl
  | cons y ys ih => rw [ticks_cons, ih]; rfl

/-- C3, as stated, fails: one `computeOutput` on the shipped controller (`dt = 1/5000`)
leaves the time cursor at `0`, not at `0 + dt`. -/
theorem C3_counterexample :
    ((construct (21.5 * 2 * PI) (-30.0) 0.0 (1.0 / 5000) (3.95 : ℝ)).computeOutput Real.sqrt).1.tw
      ≠ (construct (21.5 * 2 * PI) (-30.0) 0.0 (1.0 / 5000) (3.95 : ℝ)).tw
        + (construct (21.5 * 2 * PI) (-30.0) 0.0 (1.0 / 5000) (3.95 : ℝ)).dt_ := by
  rw [computeOutput_tw]
  norm_num [construct]

/-- C3, amended. `computeOutput` leaves the time cursor `tw` unchanged (the stepper receives
`tw` by value and the method does not assign it): `tw` after the call equals `tw` before it,
so after any sequence of ticks from a fresh controller `tw` is still `0`; `w` is overwritten
by the state the stepper returns and the new `w[0]` is the returned value. -/
theorem C3_time_cursor_unchanged (c : DefaultController ℝ) (ys : List ℝ)
    (w_star g1 g2 dt bound : ℝ) :
    (c.computeOutput Real.sqrt).1.tw = c.tw ∧
    (ticks Real.sqrt c ys).tw = c.tw ∧
    (ticks Real.sqrt (construct w_star g1 g2 dt bound) ys).tw = 0 ∧
    (c.computeOutput Real.sqrt).1.w
      = (c.stepper.do_step (c.equations Real.sqrt) c.w c.tw c.dt_).2 ∧
    (c.computeOutput Real.sqrt).2 = (c.computeOutput Real.sqrt).1.w 0 :=
  ⟨rfl, ticks_tw c ys, ticks_tw _ ys, rfl, rfl⟩

theorem abs_fst_le_norm (v : ℝ × ℝ) : |v.1| ≤ Vector2d.norm Real.sqrt v := by
  apply Real.abs_le_sqrt
  nlinarith [mul_self_nonneg v.2]

theorem abs_snd_le_norm (v : ℝ × ℝ) : |v.2| ≤ Vector2d.norm Real.sqrt v := by
  apply Real.abs_le_sqrt
  nlinarith [mul_self_nonneg v.1]

/-- The rotation term `w* * w_hat1` of `dy[0]` is bounded by `|w*| * bound`. -/
theorem abs_rotation_le (c : DefaultController ℝ) (hb : 0 < c.bound_) (y : state_type ℝ) :
    |c.w_star_ * (c.w_hat Real.sqrt y).2| ≤ |c.w_star_| * c.bound_ := by
  rw [abs_mul]
  exact mul_le_mul_of_nonneg_left
    (le_trans (abs_snd_le_norm _) (norm_w_hat_le c y hb)) (abs_nonneg _)

/-- First step of a controller whose stepper is fresh: `w[0]` moves by `dt` times the
Dormand-Prince combination of five stage derivatives, each of which is `g1 * out` plus a
rotation term of size at most `|w*| * bound`. -/
theorem computeOutput_first_w0 (c : DefaultController ℝ) (hb : 0 < c.bound_)
    (hf : c.stepper.m_first_call = true) :
    ∃ e1 e3 e4 e5 e6 : ℝ,
      |e1| ≤ |c.w_star_| * c.bound_ ∧ |e3| ≤ |c.w_star_| * c.bound_ ∧
      |e4| ≤ |c.w_star_| * c.bound_ ∧ |e5| ≤ |c.w_star_| * c.bound_ ∧
      |e6| ≤ |c.w_star_| * c.bound_ ∧
      (c.computeOutput Real.sqrt).1.w 0 =
        1 * c.w 0 + c.dt_ * (35 / 384) * (e1 + c.G.1 * c.out)
          + c.dt_ * (500 / 1113) * (e3 + c.G.1 * c.out)
          + c.dt_ * (125 / 192) * (e4 + c.G.1 * c.out)
          + c.dt_ * (-2187 / 6784) * (e5 + c.G.1 * c.out)
          + c.dt_ * (11 / 84) * (e6 + c.G.1 * c.out) := by
  simp only [computeOutput, runge_kutta_dopri5.do_step, hf, if_true,
    runge_kutta_dopri5.do_step_impl, equations_zero]
  exact ⟨_, _, _, _, _, abs_rotation_le c hb _, abs_rotation_le c hb _, abs_rotation_le c hb _,
    abs_rotation_le c hb _, abs_rotation_le c hb _, rfl⟩

/-- The shipped controller after its first tick with the measurement `y = 1000`: the stored
`w[0]` lies below `-5.8`. -/
theorem shipped_first_tick_w0 :
    (ticks Real.sqrt (construct (21.5 * 2 * PI) (-30.0) 0.0 (1.0 / 5000) (3.95 : ℝ)) [1000]).w 0
      < -5.8 := by
  have hb : (0 : ℝ) <
      ((construct (21.5 * 2 * PI) (-30.0) 0.0 (1.0 / 5000) (3.95 : ℝ)).setInput 1000).bound_ := by
    norm_num [construct, setInput]
  obtain ⟨e1, e3, e4, e5, e6, h1, h3, h4, h5, h6, hw⟩ := computeOutput_first_w0
    ((construct (21.5 * 2 * PI) (-30.0) 0.0 (1.0 / 5000) (3.95 : ℝ)).setInput 1000) hb rfl
  have hB : |((construct (21.5 * 2 * PI) (-30.0) 0.0 (1.0 / 5000) (3.95 : ℝ)).setInput
      1000).w_star_| * ((construct (21.5 * 2 * PI) (-30.0) 0.0 (1.0 / 5000)
      (3.95 : ℝ)).setInput 1000).bound_ ≤ 534 := by
    have hpos : (0 : ℝ) ≤ 21.5 * 2 * PI := by norm_num [PI]
    simp only [construct, setInput]
    rw [abs_of_nonneg hpos]
    norm_num [PI]
  have g1 := abs_le.mp (le_trans h1 hB)
  have g3 := abs_le.mp (le_trans h3 hB)
  have g4 := abs_le.mp (le_trans h4 hB)
  have g5 := abs_le.mp (le_trans h5 hB)
  have g6 := abs_le.mp (le_trans h6 hB)
  show ((construct (21.5 * 2 * PI) (-30.0) 0.0 (1.0 / 5000) (3.95 : ℝ)).setInput
    1000 |>.computeOutput Real.sqrt).1.w 0 < -5.8
  rw [hw]
  simp only [construct, setInput, Function.update_same,
    Function.update_noteq (show (0 : Fin 6) ≠ 1 by decide)]
  norm_num
  linarith [g1.1, g1.2, g3.1, g3.2, g4.1, g4.2, g5.1, g5.2, g6.1, g6.2]

/-- An exactly traceable escape from the ball: a fresh controller with `w* = 0`, `G = (1, 0)`,
`dt = 1` and bound `1`, after the single tick `setInput(2); computeOutput()`, stores
`w = (2, 0)`, whose norm `2` exceeds the bound. -/
theorem stored_state_escapes_exact :
    (0 : ℝ) < (construct (0 : ℝ) 1 0 1 1).bound_ ∧
    ¬ Vector2d.norm Real.sqrt
        ((ticks Real.sqrt (construct (0 : ℝ) 1 0 1 1) [2]).w 0,
         (ticks Real.sqrt (construct (0 : ℝ) 1 0 1 1) [2]).w 1)
      ≤ (ticks Real.sqrt (construct (0 : ℝ) 1 0 1 1) [2]).bound_ := by
  have e0 : (ticks Real.sqrt (construct (0 : ℝ) 1 0 1 1) [2]).w 0 = 2 := by
    simp [ticks, defaultController, setInput, computeOutput, runge_kutta_dopri5.do_step,
      runge_kutta_dopri5.do_step_impl, equations, construct, runge_kutta_dopri5.construct]
    norm_num
  have e1 : (ticks Real.sqrt (construct (0 : ℝ) 1 0 1 1) [2]).w 1 = 0 := by
    simp [ticks, defaultController, setInput, computeOutput, runge_kutta_dopri5.do_step,
      runge_kutta_dopri5.do_step_impl, equations, construct, runge_kutta_dopri5.construct]
  refine ⟨by norm_num [construct], ?_⟩
  rw [e0, e1, ticks_bound]
  have hs : Vector2d.norm Real.sqrt ((2 : ℝ), (0 : ℝ)) = 2 := by
    show Real.sqrt (2 * 2 + 0 * 0) = 2
    rw [mul_zero, add_zero]
    exact Real.sqrt_mul_self (by norm_num)
  rw [hs]
  norm_num [construct]

/-- C4, as stated, fails: the shipped controller (`w* = 21.5 * 2 * PI`, `G = (-30, 0)`,
`dt = 1/5000`, bound `3.95`), freshly constructed, after the single tick
`setInput(1000); computeOutput()` stores a state outside the ball.  The step adds to `w[0]`
the amount `dt` times a combination of stage derivatives `g1 * y + w* * w_hat1` with
`g1 * y = -30000` and `|w* * w_hat1| ≤ 534`, so `w[0] < -5.8` and the norm exceeds `3.95`. -/
theorem C4_counterexample :
    (0 : ℝ) < (construct (21.5 * 2 * PI) (-30.0) 0.0 (1.0 / 5000) (3.95 : ℝ)).bound_ ∧
    ¬ Vector2d.norm Real.sqrt
        ((ticks Real.sqrt (construct (21.5 * 2 * PI) (-30.0) 0.0 (1.0 / 5000) (3.95 : ℝ))
            [1000]).w 0,
         (ticks Real.sqrt (construct (21.5 * 2 * PI) (-30.0) 0.0 (1.0 / 5000) (3.95 : ℝ))
            [1000]).w 1)
      ≤ (ticks Real.sqrt (construct (21.5 * 2 * PI) (-30.0) 0.0 (1.0 / 5000) (3.95 : ℝ))
            [1000]).bound_ := by
  refine ⟨by norm_num [construct], ?_⟩
  rw [ticks_bound]
  intro h
  have h0 := shipped_first_tick_w0
  have h1 := abs_fst_le_norm
    ((ticks Real.sqrt (construct (21.5 * 2 * PI) (-30.0) 0.0 (1.0 / 5000) (3.95 : ℝ))
        [1000]).w 0,
     (ticks Real.sqrt (construct (21.5 * 2 * PI) (-30.0) 0.0 (1.0 / 5000) (3.95 : ℝ))
        [1000]).w 1)
  have h2 := (abs_le.mp (le_trans h1 h)).1
  have hbd : (construct (21.5 * 2 * PI) (-30.0) 0.0 (1.0 / 5000) (3.95 : ℝ)).bound_ = 3.95 := rfl
  rw [hbd] at h2
  norm_num at h2
  linarith

/-- C4, amended. Starting from the freshly constructed controller with a bound greater
than zero, after any finite sequence of ticks with arbitrary inputs the saturated copy
`w_hat` of the stored state, the vector the next derivative evaluation uses, has norm at
most the bound (the stored `w` itself is not confined to the ball). -/
theorem C4_saturated_state_bounded (w_star g1 g2 dt bound : ℝ) (hb : 0 < bound)
    (ys : List ℝ) :
    Vector2d.norm Real.sqrt
        ((ticks Real.sqrt (construct w_star g1 g2 dt bound) ys).w_hat Real.sqrt
          (ticks Real.sqrt (construct w_star g1 g2 dt bound) ys).w)
      ≤ bound := by
  have h := norm_w_hat_le (ticks Real.sqrt (construct w_star g1 g2 dt bound) ys)
    (ticks Real.sqrt (construct w_star g1 g2 dt bound) ys).w
    (by rw [ticks_bound]; exact hb)
  rw [ticks_bound] at h
  exact h

/-- C4, amended, instance: the shipped controller after the ticks `1000, -2000, 30`. -/
theorem C4_saturated_state_bounded_witness :
    (0 : ℝ) < 3.95 ∧
    Vector2d.norm Real.sqrt
        ((ticks Real.sqrt (construct (21.5 * 2 * PI) (-30.0) 0.0 (1.0 / 5000) (3.95 : ℝ))
            [1000, -2000, 30]).w_hat Real.sqrt
          (ticks Real.sqrt (construct (21.5 * 2 * PI) (-30.0) 0.0 (1.0 / 5000) (3.95 : ℝ))
            [1000, -2000, 30]).w)
      ≤ 3.95 :=
  ⟨by norm_num, C4_saturated_state_bounded _ _ _ _ _ (by norm_num) _⟩


/-- At a state whose entries 0 and 1 vanish, with `out = 0` and a bound greater than zero,
`equations` writes zero into entries 0 and 1 of the derivative. -/
theorem equations_rest (c : DefaultController ℝ) (hb : 0 < c.bound_) (hout : c.out = 0)
    (y dy : state_type ℝ) (x : ℝ) (h0 : y 0 = 0) (h1 : y 1 = 0) :
    c.equations Real.sqrt y dy x 0 = 0 ∧ c.equations Real.sqrt y dy x 1 = 0 := by
  have hn : Vector2d.norm Real.sqrt (y 0, y 1) < c.bound_ := by
    rw [h0, h1]
    show Real.sqrt (0 * 0 + 0 * 0) < c.bound_
    simpa using hb
  rw [equations_zero, equations_one, w_hat_of_lt c y hn, hout, h0, h1]
  simp

/-- One stepper call with a system function that maps resting states to resting derivatives:
a resting state with a resting first-stage derivative stays at rest. -/
theorem do_step_impl_rest (st : runge_kutta_dopri5 ℝ)
    (sys : state_type ℝ → state_type ℝ → ℝ → state_type ℝ)
    (hsys : ∀ y dy t, y 0 = 0 → y 1 = 0 → sys y dy t 0 = 0 ∧ sys y dy t 1 = 0)
    (x dxdt_in : state_type ℝ) (t dt : ℝ)
    (hx0 : x 0 = 0) (hx1 : x 1 = 0) (hd0 : dxdt_in 0 = 0) (hd1 : dxdt_in 1 = 0) :
    (st.do_step_impl sys x dxdt_in t dt).2 0 = 0 ∧
    (st.do_step_impl sys x dxdt_in t dt).2 1 = 0 ∧
    (st.do_step_impl sys x dxdt_in t dt).1.m_dxdt 0 = 0 ∧
    (st.do_step_impl sys x dxdt_in t dt).1.m_dxdt 1 = 0 ∧
    (st.do_step_impl sys x dxdt_in t dt).1.m_first_call = st.m_first_call := by
  simp only [runge_kutta_dopri5.do_step_impl]
  generalize hk2 : sys (fun i => 1 * x i + dt * (1 / 5) * dxdt_in i) st.m_k2
    (t + dt * (1 / 5)) = k2
  have z2 := hsys (fun i => 1 * x i + dt * (1 / 5) * dxdt_in i) st.m_k2 (t + dt * (1 / 5))
    (by simp [hx0, hd0]) (by simp [hx1, hd1])
  rw [hk2] at z2
  generalize hk3 : sys (fun i => 1 * x i + dt * (3 / 40) * dxdt_in i + dt * (9 / 40) * k2 i)
    st.m_k3 (t + dt * (3 / 10)) = k3
  have z3 := hsys (fun i => 1 * x i + dt * (3 / 40) * dxdt_in i + dt * (9 / 40) * k2 i)
    st.m_k3 (t + dt * (3 / 10)) (by simp [hx0, hd0, z2.1]) (by simp [hx1, hd1, z2.2])
  rw [hk3] at z3
  generalize hk4 : sys (fun i => 1 * x i + dt * (44 / 45) * dxdt_in i + dt * (-56 / 15) * k2 i
    + dt * (32 / 9) * k3 i) st.m_k4 (t + dt * (4 / 5)) = k4
  have z4 := hsys (fun i => 1 * x i + dt * (44 / 45) * dxdt_in i + dt * (-56 / 15) * k2 i
    + dt * (32 / 9) * k3 i) st.m_k4 (t + dt * (4 / 5))
    (by simp [hx0, hd0, z2.1, z3.1]) (by simp [hx1, hd1, z2.2, z3.2])
  rw [hk4] at z4
  generalize hk5 : sys (fun i => 1 * x i + dt * (19372 / 6561) * dxdt_in i
    + dt * (-25360 / 2187) * k2 i + dt * (64448 / 6561) * k3 i + dt * (-212 / 729) * k4 i)
    st.m_k5 (t + dt * (8 / 9)) = k5
  have z5 := hsys (fun i => 1 * x i + dt * (19372 / 6561) * dxdt_in i
    + dt * (-25360 / 2187) * k2 i + dt * (64448 / 6561) * k3 i + dt * (-212 / 729) * k4 i)
    st.m_k5 (t + dt * (8 / 9))
    (by simp [hx0, hd0, z2.1, z3.1, z4.1]) (by simp [hx1, hd1, z2.2, z3.2, z4.2])
  rw [hk5] at z5
  generalize hk6 : sys (fun i => 1 * x i + dt * (9017 / 3168) * dxdt_in i
    + dt * (-355 / 33) * k2 i + dt * (46732 / 5247) * k3 i + dt * (49 / 176) * k4 i
    + dt * (-5103 / 18656) * k5 i) st.m_k6 (t + dt) = k6
  have z6 := hsys (fun i => 1 * x i + dt * (9017 / 3168) * dxdt_in i
    + dt * (-355 / 33) * k2 i + dt * (46732 / 5247) * k3 i + dt * (49 / 176) * k4 i
    + dt * (-5103 / 18656) * k5 i) st.m_k6 (t + dt)
    (by simp [hx0, hd0, z2.1, z3.1, z4.1, z5.1]) (by simp [hx1, hd1, z2.2, z3.2, z4.2, z5.2])
  rw [hk6] at z6
  have o0 : 1 * x 0 + dt * (35 / 384) * dxdt_in 0 + dt * (500 / 1113) * k3 0
      + dt * (125 / 192) * k4 0 + dt * (-2187 / 6784) * k5 0 + dt * (11 / 84) * k6 0 = 0 := by
    simp [hx0, hd0, z3.1, z4.1, z5.1, z6.1]
  have o1 : 1 * x 1 + dt * (35 / 384) * dxdt_in 1 + dt * (500 / 1113) * k3 1
      + dt * (125 / 192) * k4 1 + dt * (-2187 / 6784) * k5 1 + dt * (11 / 84) * k6 1 = 0 := by
    simp [hx1, hd1, z3.2, z4.2, z5.2, z6.2]
  have zd := hsys (fun i => 1 * x i + dt * (35 / 384) * dxdt_in i + dt * (500 / 1113) * k3 i
      + dt * (125 / 192) * k4 i + dt * (-2187 / 6784) * k5 i + dt * (11 / 84) * k6 i)
    dxdt_in (t + dt) o0 o1
  exact ⟨o0, o1, zd.1, zd.2, trivial⟩


/-- One `computeOutput` of a resting controller: the oscillator entries of `w` vanish, the
stored input is `0`, and the stepper is fresh or caches a derivative whose entries 0 and 1
vanish.  The call returns `0` and the controller is again at rest. -/
theorem computeOutput_rest (c : DefaultController ℝ) (hb : 0 < c.bound_) (hout : c.out = 0)
    (hw0 : c.w 0 = 0) (hw1 : c.w 1 = 0)
    (hst : c.stepper.m_first_call = true ∨
      (c.stepper.m_dxdt 0 = 0 ∧ c.stepper.m_dxdt 1 = 0)) :
    (c.computeOutput Real.sqrt).2 = 0 ∧
    (c.computeOutput Real.sqrt).1.w 0 = 0 ∧
    (c.computeOutput Real.sqrt).1.w 1 = 0 ∧
    (c.computeOutput Real.sqrt).1.stepper.m_dxdt 0 = 0 ∧
    (c.computeOutput Real.sqrt).1.stepper.m_dxdt 1 = 0 := by
  have hsys : ∀ (y dy : state_type ℝ) (t : ℝ), y 0 = 0 → y 1 = 0 →
      c.equations Real.sqrt y dy t 0 = 0 ∧ c.equations Real.sqrt y dy t 1 = 0 :=
    fun y dy t h0 h1 => equations_rest c hb hout y dy t h0 h1
  simp only [computeOutput, runge_kutta_dopri5.do_step]
  by_cases hf : c.stepper.m_first_call = true
  · simp only [hf, if_true]
    have hd := hsys c.w c.stepper.m_dxdt c.tw hw0 hw1
    have r := do_step_impl_rest
      { c.stepper with
        m_dxdt := c.equations Real.sqrt c.w c.stepper.m_dxdt c.tw, m_first_call := false }
      (c.equations Real.sqrt) hsys c.w
      (c.equations Real.sqrt c.w c.stepper.m_dxdt c.tw) c.tw c.dt_ hw0 hw1 hd.1 hd.2
    exact ⟨r.1, r.1, r.2.1, r.2.2.1, r.2.2.2.1⟩
  · have hd : c.stepper.m_dxdt 0 = 0 ∧ c.stepper.m_dxdt 1 = 0 := by
      rcases hst with h | h
      · exact absurd h hf
      · exact h
    simp only [hf, if_false]
    have r := do_step_impl_rest c.stepper (c.equations Real.sqrt) hsys c.w c.stepper.m_dxdt
      c.tw c.dt_ hw0 hw1 hd.1 hd.2
    exact ⟨r.1, r.1, r.2.1, r.2.2.1, r.2.2.2.1⟩

theorem setInput_zero_of_out (c : DefaultController ℝ) (hout : c.out = 0) :
    c.setInput 0 = c := by
  cases c
  simp only [setInput] at *
  simp [hout]

/-- Any number of zero-input ticks keeps a resting controller at rest. -/
theorem ticks_rest (n : ℕ) (c : DefaultController ℝ) (hb : 0 < c.bound_) (hout : c.out = 0)
    (hw0 : c.w 0 = 0) (hw1 : c.w 1 = 0)
    (hst : c.stepper.m_first_call = true ∨
      (c.stepper.m_dxdt 0 = 0 ∧ c.stepper.m_dxdt 1 = 0)) :
    0 < (ticks Real.sqrt c (List.replicate n 0)).bound_ ∧
    (ticks Real.sqrt c (List.replicate n 0)).out = 0 ∧
    (ticks Real.sqrt c (List.replicate n 0)).w 0 = 0 ∧
    (ticks Real.sqrt c (List.replicate n 0)).w 1 = 0 ∧
    ((ticks Real.sqrt c (List.replicate n 0)).stepper.m_first_call = true ∨
      ((ticks Real.sqrt c (List.replicate n 0)).stepper.m_dxdt 0 = 0 ∧
       (ticks Real.sqrt c (List.replicate n 0)).stepper.m_dxdt 1 = 0)) := by
  induction n generalizing c with
  | zero => exact ⟨hb, hout, hw0, hw1, hst⟩
  | succ n ih =>
    rw [List.replicate_succ, ticks_cons]
    have r := computeOutput_rest c hb hout hw0 hw1 hst
    have e : (defaultController Real.sqrt c 0).1 = (c.computeOutput Real.sqrt).1 := by
      simp only [defaultController, setInput_zero_of_out c hout]
    rw [e]
    exact ih _ hb hout r.2.1 r.2.2.1 (Or.inr ⟨r.2.2.2.1, r.2.2.2.2⟩)

/-- Entries of the state vector other than 0 and 1 are never written by `equations`, so a
step leaves them zero when they and the corresponding buffer entries are zero. -/
theorem computeOutput_upper (c : DefaultController ℝ) (i : Fin 6) (h0 : i ≠ 0) (h1 : i ≠ 1)
    (hw : c.w i = 0) (hd : c.stepper.m_dxdt i = 0) (h2 : c.stepper.m_k2 i = 0)
    (h3 : c.stepper.m_k3 i = 0) (h4 : c.stepper.m_k4 i = 0) (h5 : c.stepper.m_k5 i = 0)
    (h6 : c.stepper.m_k6 i = 0) :
    (c.computeOutput Real.sqrt).1.w i = 0 ∧
    (c.computeOutput Real.sqrt).1.stepper.m_dxdt i = 0 ∧
    (c.computeOutput Real.sqrt).1.stepper.m_k2 i = 0 ∧
    (c.computeOutput Real.sqrt).1.stepper.m_k3 i = 0 ∧
    (c.computeOutput Real.sqrt).1.stepper.m_k4 i = 0 ∧
    (c.computeOutput Real.sqrt).1.stepper.m_k5 i = 0 ∧
    (c.computeOutput Real.sqrt).1.stepper.m_k6 i = 0 := by
  have hsys : ∀ (y dy : state_type ℝ) (t : ℝ), c.equations Real.sqrt y dy t i = dy i := by
    intro y dy t
    simp [equations, Function.update_noteq h1, Function.update_noteq h0]
  by_cases hf : c.stepper.m_first_call = true
  · simp [computeOutput, runge_kutta_dopri5.do_step, runge_kutta_dopri5.do_step_impl, hf, hsys,
      hw, hd, h2, h3, h4, h5, h6]
  · simp [computeOutput, runge_kutta_dopri5.do_step, runge_kutta_dopri5.do_step_impl, hf, hsys,
      hw, hd, h2, h3, h4, h5, h6]

theorem ticks_upper (ys : List ℝ) (c : DefaultController ℝ) (i : Fin 6) (h0 : i ≠ 0)
    (h1 : i ≠ 1) (hw : c.w i = 0) (hd : c.stepper.m_dxdt i = 0) (h2 : c.stepper.m_k2 i = 0)
    (h3 : c.stepper.m_k3 i = 0) (h4 : c.stepper.m_k4 i = 0) (h5 : c.stepper.m_k5 i = 0)
    (h6 : c.stepper.m_k6 i = 0) :
    (ticks Real.sqrt c ys).w i = 0 := by
  induction ys generalizing c with
  | nil => exact hw
  | cons y ys ih =>
    rw [ticks_cons]
    have r := computeOutput_upper (c.setInput y) i h0 h1 hw hd h2 h3 h4 h5 h6
    exact ih _ r.1 r.2.1 r.2.2.1 r.2.2.2.1 r.2.2.2.2.1 r.2.2.2.2.2.1 r.2.2.2.2.2.2

/-- In every state reached from a freshly constructed controller the entries 2 to 5 of `w`
are zero: the oscillator state is the pair `(w[0], w[1])`. -/
theorem ticks_construct_upper (w_star g1 g2 dt bound : ℝ) (ys : List ℝ) (i : Fin 6)
    (h0 : i ≠ 0) (h1 : i ≠ 1) :
    (ticks Real.sqrt (construct w_star g1 g2 dt bound) ys).w i = 0 :=
  ticks_upper ys _ i h0 h1 (by simp [construct, Function.update_noteq h1, Function.update_noteq h0])
    rfl rfl rfl rfl rfl rfl

/-- The stored state after the ticks `349`, `-419` from the fresh controller with `w* = 0`,
`G = (1, 0)`, `dt = 1`, bound `1`: all six entries are zero. -/
theorem stale_state_w (i : Fin 6) :
    (ticks Real.sqrt (construct (0 : ℝ) 1 0 1 1) [349, -419]).w i = 0 := by
  have e0 : (ticks Real.sqrt (construct (0 : ℝ) 1 0 1 1) [349, -419]).w 0 = 0 := by
    simp [ticks, defaultController, setInput, computeOutput, runge_kutta_dopri5.do_step,
      runge_kutta_dopri5.do_step_impl, equations, construct, runge_kutta_dopri5.construct]
    norm_num
  have e1 : (ticks Real.sqrt (construct (0 : ℝ) 1 0 1 1) [349, -419]).w 1 = 0 := by
    simp [ticks, defaultController, setInput, computeOutput, runge_kutta_dopri5.do_step,
      runge_kutta_dopri5.do_step_impl, equations, construct, runge_kutta_dopri5.construct]
  by_cases h0 : i = 0
  · rw [h0]; exact e0
  · by_cases h1 : i = 1
    · rw [h1]; exact e1
    · exact ticks_construct_upper 0 1 0 1 1 _ i h0 h1

/-- C10, as stated, fails: the controller reached from a fresh one (`w* = 0`, `G = (1, 0)`,
`dt = 1`, bound `1`) by the ticks `349` and `-419` has `w = 0`; after `setInput(0)` its
stored input is `0`, yet `computeOutput()` returns `-14665/384` and leaves
`w[0] = -14665/384`, because the first stage reuses the derivative cached at the end of the
previous step. -/
theorem C10_counterexample :
    (0 : ℝ) < ((ticks Real.sqrt (construct (0 : ℝ) 1 0 1 1) [349, -419]).setInput 0).bound_ ∧
    (∀ i, ((ticks Real.sqrt (construct (0 : ℝ) 1 0 1 1) [349, -419]).setInput 0).w i = 0) ∧
    ((ticks Real.sqrt (construct (0 : ℝ) 1 0 1 1) [349, -419]).setInput 0).out = 0 ∧
    (((ticks Real.sqrt (construct (0 : ℝ) 1 0 1 1) [349, -419]).setInput 0).computeOutput
      Real.sqrt).2 = -14665 / 384 ∧
    (((ticks Real.sqrt (construct (0 : ℝ) 1 0 1 1) [349, -419]).setInput 0).computeOutput
      Real.sqrt).2 ≠ 0 := by
  have e : (((ticks Real.sqrt (construct (0 : ℝ) 1 0 1 1) [349, -419]).setInput 0).computeOutput
      Real.sqrt).2 = -14665 / 384 := by
    simp [ticks, defaultController, setInput, computeOutput, runge_kutta_dopri5.do_step,
      runge_kutta_dopri5.do_step_impl, equations, construct, runge_kutta_dopri5.construct]
    norm_num
  refine ⟨by norm_num [setInput, ticks_bound, construct], stale_state_w, rfl, e, ?_⟩
  rw [e]
  norm_num

/-- C10, amended. The zero state is a fixed point under zero input when the stepper holds no
stale derivative: for every controller with a bound greater than zero, `w[0] = w[1] = 0`,
stored input `out = 0`, and a stepper that is fresh or caches a derivative with vanishing
entries 0 and 1 (in particular a freshly constructed controller), after any number of ticks
with `setInput(0)` the state still has `w[0] = w[1] = 0` and the next `computeOutput()`
returns exactly `0`; for a freshly constructed controller all six entries of `w` stay `0`. -/
theorem C10_zero_fixed_point (c : DefaultController ℝ) (hb : 0 < c.bound_)
    (hout : c.out = 0) (hw0 : c.w 0 = 0) (hw1 : c.w 1 = 0)
    (hst : c.stepper.m_first_call = true ∨
      (c.stepper.m_dxdt 0 = 0 ∧ c.stepper.m_dxdt 1 = 0))
    (n : ℕ) :
    (ticks Real.sqrt c (List.replicate n 0)).w 0 = 0 ∧
    (ticks Real.sqrt c (List.replicate n 0)).w 1 = 0 ∧
    (ticks Real.sqrt c (List.replicate n 0)).out = 0 ∧
    ((ticks Real.sqrt c (List.replicate n 0)).computeOutput Real.sqrt).2 = 0 ∧
    (defaultController Real.sqrt (ticks Real.sqrt c (List.replicate n 0)) 0).2 = 0 ∧
    (∀ w_star g1 g2 dt bound : ℝ, 0 < bound → ∀ i,
      (ticks Real.sqrt (construct w_star g1 g2 dt bound) (List.replicate n 0)).w i = 0) := by
  have r := ticks_rest n c hb hout hw0 hw1 hst
  have q := computeOutput_rest _ r.1 r.2.1 r.2.2.1 r.2.2.2.1 r.2.2.2.2
  refine ⟨r.2.2.1, r.2.2.2.1, r.2.1, q.1, ?_, ?_⟩
  · simp only [defaultController, setInput_zero_of_out _ r.2.1]
    exact q.1
  · intro w_star g1 g2 dt bound hbound i
    have f := ticks_rest n (construct w_star g1 g2 dt bound) hbound rfl
      (by simp [construct]) (by simp [construct]) (Or.inl rfl)
    by_cases h0 : i = 0
    · rw [h0]; exact f.2.2.1
    · by_cases h1 : i = 1
      · rw [h1]; exact f.2.2.2.1
      · exact ticks_construct_upper w_star g1 g2 dt bound _ i h0 h1

/-- C10, amended, instance: the freshly constructed shipped controller, three zero ticks. -/
theorem C10_zero_fixed_point_witness :
    (0 : ℝ) < (construct (21.5 * 2 * PI) (-30.0) 0.0 (1.0 / 5000) (3.95 : ℝ)).bound_ ∧
    (construct (21.5 * 2 * PI) (-30.0) 0.0 (1.0 / 5000) (3.95 : ℝ)).out = 0 ∧
    (construct (21.5 * 2 * PI) (-30.0) 0.0 (1.0 / 5000) (3.95 : ℝ)).w 0 = 0 ∧
    (construct (21.5 * 2 * PI) (-30.0) 0.0 (1.0 / 5000) (3.95 : ℝ)).w 1 = 0 ∧
    (construct (21.5 * 2 * PI) (-30.0) 0.0 (1.0 / 5000)
      (3.95 : ℝ)).stepper.m_first_call = true ∧
    ((ticks Real.sqrt (construct (21.5 * 2 * PI) (-30.0) 0.0 (1.0 / 5000) (3.95 : ℝ))
      (List.replicate 3 0)).computeOutput Real.sqrt).2 = 0 :=
  ⟨by norm_num [construct], rfl, by simp [construct], by simp [construct], rfl,
    (C10_zero_fixed_point (construct (21.5 * 2 * PI) (-30.0) 0.0 (1.0 / 5000) (3.95 : ℝ))
      (by norm_num [construct]) rfl (by simp [construct]) (by simp [construct])
      (Or.inl rfl) 3).2.2.2.1⟩

/-! ## The outer loops of `main` as iterated block steps -/


theorem blockStep_of_failed (cfg : Config ℝ) (dev : Device ℝ)
    (sample : Nat → MainState ℝ → MainState ℝ) (s : MainState ℝ)
    (h : DAQmxFailed s.error = true) : blockStep cfg dev sample s = s := by
  simp [blockStep, h]

theorem blockStep_of_ok (cfg : Config ℝ) (dev : Device ℝ)
    (sample : Nat → MainState ℝ → MainState ℝ) (s : MainState ℝ)
    (h : DAQmxFailed s.error = false) :
    blockStep cfg dev sample s = blockTransfer cfg dev (sampleLoop cfg sample s) := by
  simp [blockStep, h]

theorem iterate_blockStep_of_failed (cfg : Config ℝ) (dev : Device ℝ)
    (sample : Nat → MainState ℝ → MainState ℝ) (m : ℕ) (s : MainState ℝ)
    (h : DAQmxFailed s.error = true) : (blockStep cfg dev sample)^[m] s = s := by
  induction m with
  | zero => rfl
  | succ m ih => rw [Function.iterate_succ_apply, blockStep_of_failed cfg dev sample s h, ih]

/-- The outer `for` loop with a real-valued limit runs the block step `⌈limit⌉₊ - i` times. -/
theorem blockLoop_eq_iterate (cfg : Config ℝ) (dev : Device ℝ)
    (sample : Nat → MainState ℝ → MainState ℝ) (limit : ℝ) (m i : ℕ) (s : MainState ℝ)
    (hm : Nat.ceil limit - i = m) (hs : DAQmxFailed s.error = false) :
    blockLoop cfg dev sample limit i s = (blockStep cfg dev sample)^[m] s := by
  induction m generalizing i s with
  | zero =>
    have h1 : Nat.ceil limit ≤ i := Nat.sub_eq_zero_iff_le.mp hm
    have h2 : ¬ ((i : ℝ) < limit) := not_lt.mpr (Nat.ceil_le.mp h1)
    rw [blockLoop, dif_neg h2]
    rfl
  | succ m ih =>
    have h1 : i < Nat.ceil limit := by omega
    have h2 : (i : ℝ) < limit := Nat.lt_ceil.mp h1
    rw [blockLoop, dif_pos h2, Function.iterate_succ_apply, blockStep_of_ok cfg dev sample s hs]
    by_cases hf : DAQmxFailed (blockTransfer cfg dev (sampleLoop cfg sample s)).error = true
    · simp only [hf, if_true]
      rw [iterate_blockStep_of_failed cfg dev sample m _ hf]
    · simp only [hf]
      exact ih (i + 1) _ (by omega) (by simpa using hf)

/-- The state of `main` at the end, for a device whose set-up calls succeed: the active block
step iterated over the warm-up block step iterated from the initial state. -/
theorem main_eq_iterate (cfg : Config ℝ) (dev : Device ℝ)
    (h : DAQmxFailed dev.setup = false) :
    main Real.sqrt Real.sin cfg dev =
      (blockStep cfg dev (activeSample Real.sqrt Real.sin cfg))^[
          Nat.ceil (cfg.runTime * cfg.sampleFs / (cfg.samplesPerChan : ℝ))]
        ((blockStep cfg dev (warmUpSample Real.sin cfg))^[
          Nat.ceil (cfg.warmUp * cfg.sampleFs / (cfg.samplesPerChan : ℝ))]
          { MainState.initial cfg with error := dev.setup }) := by
  have hw : afterWarmUp Real.sin cfg dev =
      (blockStep cfg dev (warmUpSample Real.sin cfg))^[
          Nat.ceil (cfg.warmUp * cfg.sampleFs / (cfg.samplesPerChan : ℝ))]
          { MainState.initial cfg with error := dev.setup } := by
    simp only [afterWarmUp, h, warmUpPhase]
    exact blockLoop_eq_iterate cfg dev _ _ _ 0 _ (Nat.sub_zero _) h
  simp only [main]
  rw [hw]
  by_cases hf : DAQmxFailed ((blockStep cfg dev (warmUpSample Real.sin cfg))^[
          Nat.ceil (cfg.warmUp * cfg.sampleFs / (cfg.samplesPerChan : ℝ))]
          { MainState.initial cfg with error := dev.setup }).error = true
  · simp only [hf, if_true]
    rw [iterate_blockStep_of_failed cfg dev _ _ _ hf]
  · simp only [hf]
    exact blockLoop_eq_iterate cfg dev _ _ _ 0 _ (Nat.sub_zero _) (by simpa using hf)

/-! ## What one sample, one inner loop and one block transfer do to the record -/


theorem warmUpSample_recordsOne (cfg : Config ℝ) :
    RecordsOne (warmUpSample Real.sin cfg) := by
  intro i s
  exact ⟨rfl, rfl, rfl, rfl, rfl, ⟨_, rfl⟩, ⟨_, rfl⟩, ⟨_, rfl⟩⟩

theorem activeSample_recordsOne (cfg : Config ℝ) :
    RecordsOne (activeSample Real.sqrt Real.sin cfg) := by
  intro i s
  exact ⟨rfl, rfl, rfl, rfl, rfl, ⟨_, rfl⟩, ⟨_, rfl⟩, ⟨_, rfl⟩⟩

/-- The inner loop over `m` samples: bookkeeping fields are untouched, `y` grows by the
scaled contents of `read_origin`, the other sequences grow by `m` entries. -/
theorem foldl_sample (sample : Nat → MainState ℝ → MainState ℝ) (h : RecordsOne sample)
    (m : ℕ) (s : MainState ℝ) :
    ((List.range m).foldl (fun acc i => sample i acc) s).error = s.error ∧
    ((List.range m).foldl (fun acc i => sample i acc) s).blocks = s.blocks ∧
    ((List.range m).foldl (fun acc i => sample i acc) s).written = s.written ∧
    ((List.range m).foldl (fun acc i => sample i acc) s).read_origin = s.read_origin ∧
    ((List.range m).foldl (fun acc i => sample i acc) s).data.y
      = s.data.y ++ (List.range m).map (fun i => s.read_origin i * 8000 - 1.7) ∧
    (∃ l, l.length = m ∧
      ((List.range m).foldl (fun acc i => sample i acc) s).data.t = s.data.t ++ l) ∧
    (∃ l, l.length = m ∧
      ((List.range m).foldl (fun acc i => sample i acc) s).data.d = s.data.d ++ l) ∧
    (∃ l, l.length = m ∧
      ((List.range m).foldl (fun acc i => sample i acc) s).data.u = s.data.u ++ l) := by
  induction m with
  | zero => exact ⟨rfl, rfl, rfl, rfl, by simp, ⟨[], rfl, by simp⟩, ⟨[], rfl, by simp⟩,
      ⟨[], rfl, by simp⟩⟩
  | succ m ih =>
    obtain ⟨e1, e2, e3, e4, e5, ⟨lt, hlt, et⟩, ⟨ld, hld, ed⟩, ⟨lu, hlu, eu⟩⟩ := ih
    rw [List.range_succ, List.foldl_append]
    simp only [List.foldl_cons, List.foldl_nil]
    obtain ⟨f1, f2, f3, f4, f5, ⟨a, ft⟩, ⟨b, fd⟩, ⟨c, fu⟩⟩ :=
      h m ((List.range m).foldl (fun acc i => sample i acc) s)
    refine ⟨f1.trans e1, f2.trans e2, f3.trans e3, f4.trans e4, ?_, ⟨lt ++ [a], ?_, ?_⟩,
      ⟨ld ++ [b], ?_, ?_⟩, ⟨lu ++ [c], ?_, ?_⟩⟩
    · rw [f5, e5, e4, List.map_append, List.append_assoc]
      rfl
    · simp [hlt]
    · rw [ft, et, List.append_assoc]
    · simp [hld]
    · rw [fd, ed, List.append_assoc]
    · simp [hlu]
    · rw [fu, eu, List.append_assoc]

theorem blockTransfer_data (cfg : Config ℝ) (dev : Device ℝ) (s : MainState ℝ) :
    (blockTransfer cfg dev s).data = s.data := by
  unfold blockTransfer
  simp only
  split
  · rfl
  · split <;> rfl

/-- A block transfer on which both driver calls succeed. -/
theorem blockTransfer_ok (cfg : Config ℝ) (dev : Device ℝ) (s : MainState ℝ)
    (hw : 0 ≤ dev.write s.blocks) (hr : 0 ≤ (dev.read s.blocks).1) :
    DAQmxFailed (blockTransfer cfg dev s).error = false ∧
    (blockTransfer cfg dev s).blocks = s.blocks + 1 ∧
    (blockTransfer cfg dev s).read_origin
      = (fun i => if i < cfg.samplesPerChan then (dev.read s.blocks).2 i else s.read_origin i) := by
  have h1 : ¬ dev.write s.blocks < 0 := not_lt.mpr hw
  have h2 : ¬ (dev.read s.blocks).1 < 0 := not_lt.mpr hr
  simp [blockTransfer, DAQmxFailed, h1, h2]

/-! ## Error-free runs: record length and the one-block latency of `y` -/


/-- One block step of an error-free run from a state in which no call has failed. -/
theorem blockStep_ok (cfg : Config ℝ) (dev : Device ℝ)
    (sample : Nat → MainState ℝ → MainState ℝ) (h : RecordsOne sample) (s : MainState ℝ)
    (hs : DAQmxFailed s.error = false)
    (hw : 0 ≤ dev.write s.blocks) (hr : 0 ≤ (dev.read s.blocks).1) :
    DAQmxFailed (blockStep cfg dev sample s).error = false ∧
    (blockStep cfg dev sample s).blocks = s.blocks + 1 ∧
    (∀ i, i < cfg.samplesPerChan →
      (blockStep cfg dev sample s).read_origin i = lastBlock dev (s.blocks + 1) i) ∧
    (blockStep cfg dev sample s).data.y = s.data.y ++
      (List.range cfg.samplesPerChan).map (fun i => s.read_origin i * 8000 - 1.7) ∧
    (blockStep cfg dev sample s).data.t.length = s.data.t.length + cfg.samplesPerChan ∧
    (blockStep cfg dev sample s).data.d.length = s.data.d.length + cfg.samplesPerChan ∧
    (blockStep cfg dev sample s).data.u.length = s.data.u.length + cfg.samplesPerChan := by
  obtain ⟨e1, e2, e3, e4, e5, ⟨lt, hlt, et⟩, ⟨ld, hld, ed⟩, ⟨lu, hlu, eu⟩⟩ :=
    foldl_sample sample h cfg.samplesPerChan s
  rw [blockStep_of_ok cfg dev sample s hs]
  have hb : (sampleLoop cfg sample s).blocks = s.blocks := e2
  obtain ⟨t1, t2, t3⟩ := blockTransfer_ok cfg dev (sampleLoop cfg sample s)
    (by rw [hb]; exact hw) (by rw [hb]; exact hr)
  rw [blockTransfer_data]
  refine ⟨t1, by rw [t2, hb], ?_, e5, ?_, ?_, ?_⟩
  · intro i hi
    rw [t3, hb]
    simp [hi, lastBlock]
  · show ((List.range cfg.samplesPerChan).foldl (fun acc i => sample i acc) s).data.t.length = _
    rw [et, List.length_append, hlt]
  · show ((List.range cfg.samplesPerChan).foldl (fun acc i => sample i acc) s).data.d.length = _
    rw [ed, List.length_append, hld]
  · show ((List.range cfg.samplesPerChan).foldl (fun acc i => sample i acc) s).data.u.length = _
    rw [eu, List.length_append, hlu]

/-- After `m` block steps of an error-free run. -/
theorem iterate_blockStep_ok (cfg : Config ℝ) (dev : Device ℝ)
    (sample : Nat → MainState ℝ → MainState ℝ) (h : RecordsOne sample) (s : MainState ℝ)
    (hs : DAQmxFailed s.error = false) (hdev : ∀ k, 0 ≤ dev.write k ∧ 0 ≤ (dev.read k).1)
    (hro : ∀ i, i < cfg.samplesPerChan → s.read_origin i = lastBlock dev s.blocks i) (m : ℕ) :
    DAQmxFailed ((blockStep cfg dev sample)^[m] s).error = false ∧
    ((blockStep cfg dev sample)^[m] s).blocks = s.blocks + m ∧
    (∀ i, i < cfg.samplesPerChan →
      ((blockStep cfg dev sample)^[m] s).read_origin i = lastBlock dev (s.blocks + m) i) ∧
    ((blockStep cfg dev sample)^[m] s).data.y = s.data.y ++
      (List.range m).flatMap (fun j => (List.range cfg.samplesPerChan).map
        (fun i => lastBlock dev (s.blocks + j) i * 8000 - 1.7)) ∧
    ((blockStep cfg dev sample)^[m] s).data.t.length = s.data.t.length + m * cfg.samplesPerChan ∧
    ((blockStep cfg dev sample)^[m] s).data.d.length = s.data.d.length + m * cfg.samplesPerChan ∧
    ((blockStep cfg dev sample)^[m] s).data.u.length
      = s.data.u.length + m * cfg.samplesPerChan := by
  induction m with
  | zero => exact ⟨hs, rfl, hro, by simp, by simp, by simp, by simp⟩
  | succ m ih =>
    obtain ⟨i1, i2, i3, i4, i5, i6, i7⟩ := ih
    rw [Function.iterate_succ_apply']
    obtain ⟨b1, b2, b3, b4, b5, b6, b7⟩ := blockStep_ok cfg dev sample h _ i1
      (hdev _).1 (hdev _).2
    refine ⟨b1, by rw [b2, i2]; ring, ?_, ?_, ?_, ?_, ?_⟩
    · intro i hi
      rw [b3 i hi, i2]
      rfl
    · rw [b4, i4, List.range_succ, List.flatMap_append, List.append_assoc]
      congr 1
      simp only [List.flatMap_cons, List.flatMap_nil, List.append_nil]
      congr 1
      apply List.map_congr_left
      intro i hi
      rw [i3 i (List.mem_range.mp hi)]
    · rw [b5, i5]; ring
    · rw [b6, i6]; ring
    · rw [b7, i7]; ring


theorem DAQmxFailed_of_nonneg (e : Int) (h : 0 ≤ e) : DAQmxFailed e = false := by
  simp [DAQmxFailed, not_lt.mpr h]

/-- The record of an error-free run of `main`: `y` block by block, and the lengths of the
other three sequences. -/
theorem main_ok (cfg : Config ℝ) (dev : Device ℝ) (hdev : dev.noError) :
    (main Real.sqrt Real.sin cfg dev).data.y =
      (List.range (Nat.ceil (cfg.warmUp * cfg.sampleFs / (cfg.samplesPerChan : ℝ))
          + Nat.ceil (cfg.runTime * cfg.sampleFs / (cfg.samplesPerChan : ℝ)))).flatMap
        (fun k => (List.range cfg.samplesPerChan).map
          (fun i => lastBlock dev k i * 8000 - 1.7)) ∧
    (main Real.sqrt Real.sin cfg dev).data.t.length =
      (Nat.ceil (cfg.warmUp * cfg.sampleFs / (cfg.samplesPerChan : ℝ))
          + Nat.ceil (cfg.runTime * cfg.sampleFs / (cfg.samplesPerChan : ℝ)))
        * cfg.samplesPerChan ∧
    (main Real.sqrt Real.sin cfg dev).data.d.length =
      (Nat.ceil (cfg.warmUp * cfg.sampleFs / (cfg.samplesPerChan : ℝ))
          + Nat.ceil (cfg.runTime * cfg.sampleFs / (cfg.samplesPerChan : ℝ)))
        * cfg.samplesPerChan ∧
    (main Real.sqrt Real.sin cfg dev).data.u.length =
      (Nat.ceil (cfg.warmUp * cfg.sampleFs / (cfg.samplesPerChan : ℝ))
          + Nat.ceil (cfg.runTime * cfg.sampleFs / (cfg.samplesPerChan : ℝ)))
        * cfg.samplesPerChan := by
  have hset : DAQmxFailed dev.setup = false := DAQmxFailed_of_nonneg _ hdev.1
  rw [main_eq_iterate cfg dev hset]
  generalize Nat.ceil (cfg.warmUp * cfg.sampleFs / (cfg.samplesPerChan : ℝ)) = W
  generalize Nat.ceil (cfg.runTime * cfg.sampleFs / (cfg.samplesPerChan : ℝ)) = A
  obtain ⟨w1, w2, w3, w4, w5, w6, w7⟩ := iterate_blockStep_ok cfg dev
    (warmUpSample Real.sin cfg) (warmUpSample_recordsOne cfg)
    { MainState.initial cfg with error := dev.setup } hset hdev.2 (fun _ _ => rfl) W
  obtain ⟨a1, a2, a3, a4, a5, a6, a7⟩ := iterate_blockStep_ok cfg dev
    (activeSample Real.sqrt Real.sin cfg) (activeSample_recordsOne cfg) _ w1 hdev.2
    (fun i hi => by rw [w2]; exact w3 i hi) A
  refine ⟨?_, ?_, ?_, ?_⟩
  · rw [a4, w4, w2, List.range_add, List.flatMap_append, List.flatMap_map]
    simp [MainState.initial]
  · rw [a5, w5]
    simp [MainState.initial]
    ring
  · rw [a6, w6]
    simp [MainState.initial]
    ring
  · rw [a7, w7]
    simp [MainState.initial]
    ring

/-- Length of a record laid out in `K` blocks of `n` entries. -/
theorem length_flatMap_blocks {β : Type} (f : ℕ → ℕ → β) (K n : ℕ) :
    ((List.range K).flatMap (fun k => (List.range n).map (f k))).length = K * n := by
  induction K with
  | zero => simp
  | succ K ih =>
    rw [List.range_succ, List.flatMap_append, List.length_append, ih]
    simp
    ring

/-- Entry `k * n + i` of a record laid out in `K` blocks of `n` entries is entry `i` of
block `k`. -/
theorem getElem?_flatMap_blocks {β : Type} (f : ℕ → ℕ → β) (K n k i : ℕ) (hk : k < K)
    (hi : i < n) :
    ((List.range K).flatMap (fun k => (List.range n).map (f k)))[k * n + i]? = some (f k i) := by
  induction K with
  | zero => omega
  | succ K ih =>
    rw [List.range_succ, List.flatMap_append]
    rcases Nat.lt_succ_iff_lt_or_eq.mp hk with h | h
    · have hlt : k * n + i < K * n := by
        have : (k + 1) * n ≤ K * n := Nat.mul_le_mul_right n h
        linarith [this, Nat.succ_mul k n]
      rw [List.getElem?_append_left (by rw [length_flatMap_blocks]; exact hlt)]
      exact ih h
    · subst h
      rw [List.getElem?_append_right (by rw [length_flatMap_blocks]; omega),
        length_flatMap_blocks]
      simp [hi]


theorem Device.silent_noError : (Device.silent : Device ℝ).noError :=
  ⟨le_refl _, fun _ => ⟨le_refl _, le_refl _⟩⟩

/-- Block counts of the shipped configuration: 50 warm-up blocks, 1500 active blocks. -/
theorem shipped_blocks :
    Nat.ceil ((Config.shipped : Config ℝ).warmUp * (Config.shipped : Config ℝ).sampleFs
      / ((Config.shipped : Config ℝ).samplesPerChan : ℝ)) = 50 ∧
    Nat.ceil ((Config.shipped : Config ℝ).runTime * (Config.shipped : Config ℝ).sampleFs
      / ((Config.shipped : Config ℝ).samplesPerChan : ℝ)) = 1500 := by
  constructor
  · have e : (Config.shipped : Config ℝ).warmUp * (Config.shipped : Config ℝ).sampleFs
        / ((Config.shipped : Config ℝ).samplesPerChan : ℝ) = ((50 : ℕ) : ℝ) := by
      norm_num [Config.shipped]
    rw [e, Nat.ceil_natCast]
  · have e : (Config.shipped : Config ℝ).runTime * (Config.shipped : Config ℝ).sampleFs
        / ((Config.shipped : Config ℝ).samplesPerChan : ℝ) = ((1500 : ℕ) : ℝ) := by
      norm_num [Config.shipped]
    rw [e, Nat.ceil_natCast]

/-- C6, as stated, fails on its closing figure: with the shipped constants (1 s, 30 s,
5000 Hz, 100 samples per block) an error-free run records 155000 entries, not 35000. -/
theorem C6_counterexample :
    (Device.silent : Device ℝ).noError ∧
    (main Real.sqrt Real.sin Config.shipped Device.silent).data.t.length = 155000 ∧
    (main Real.sqrt Real.sin Config.shipped Device.silent).data.t.length ≠ 35000 := by
  have h := (main_ok Config.shipped Device.silent Device.silent_noError).2.1
  rw [shipped_blocks.1, shipped_blocks.2] at h
  have e : (main Real.sqrt Real.sin Config.shipped Device.silent).data.t.length = 155000 := by
    rw [h]
    rfl
  exact ⟨Device.silent_noError, e, by rw [e]; decide⟩

/-- C6, amended. Record length: for every configuration with `warmUp ≥ 0`, `runTime ≥ 0`,
`sampleFs > 0`, `samplesPerChan > 0` and every run without device error, the four recorded
sequences `t`, `d`, `u`, `y` have the same length
`(⌈warmUp * sampleFs / samplesPerChan⌉ + ⌈runTime * sampleFs / samplesPerChan⌉) * samplesPerChan`
when the loops finish; with the shipped constants that is `(50 + 1500) * 100 = 155000`. -/
theorem C6_record_length (cfg : Config ℝ) (dev : Device ℝ) (_hw : 0 ≤ cfg.warmUp)
    (_hr : 0 ≤ cfg.runTime) (_hfs : 0 < cfg.sampleFs) (_hn : 0 < cfg.samplesPerChan)
    (hdev : dev.noError) :
    (main Real.sqrt Real.sin cfg dev).data.t.length =
      (Nat.ceil (cfg.warmUp * cfg.sampleFs / (cfg.samplesPerChan : ℝ))
          + Nat.ceil (cfg.runTime * cfg.sampleFs / (cfg.samplesPerChan : ℝ)))
        * cfg.samplesPerChan ∧
    (main Real.sqrt Real.sin cfg dev).data.d.length =
      (Nat.ceil (cfg.warmUp * cfg.sampleFs / (cfg.samplesPerChan : ℝ))
          + Nat.ceil (cfg.runTime * cfg.sampleFs / (cfg.samplesPerChan : ℝ)))
        * cfg.samplesPerChan ∧
    (main Real.sqrt Real.sin cfg dev).data.u.length =
      (Nat.ceil (cfg.warmUp * cfg.sampleFs / (cfg.samplesPerChan : ℝ))
          + Nat.ceil (cfg.runTime * cfg.sampleFs / (cfg.samplesPerChan : ℝ)))
        * cfg.samplesPerChan ∧
    (main Real.sqrt Real.sin cfg dev).data.y.length =
      (Nat.ceil (cfg.warmUp * cfg.sampleFs / (cfg.samplesPerChan : ℝ))
          + Nat.ceil (cfg.runTime * cfg.sampleFs / (cfg.samplesPerChan : ℝ)))
        * cfg.samplesPerChan ∧
    (Nat.ceil ((Config.shipped : Config ℝ).warmUp * (Config.shipped : Config ℝ).sampleFs
          / ((Config.shipped : Config ℝ).samplesPerChan : ℝ))
        + Nat.ceil ((Config.shipped : Config ℝ).runTime * (Config.shipped : Config ℝ).sampleFs
          / ((Config.shipped : Config ℝ).samplesPerChan : ℝ)))
      * (Config.shipped : Config ℝ).samplesPerChan = 155000 := by
  obtain ⟨hy, ht, hd, hu⟩ := main_ok cfg dev hdev
  refine ⟨ht, hd, hu, ?_, ?_⟩
  · rw [hy, length_flatMap_blocks]
  · rw [shipped_blocks.1, shipped_blocks.2]
    rfl

/-- C6, amended, instance: the shipped configuration on a driver that always succeeds. -/
theorem C6_record_length_witness :
    (0 : ℝ) ≤ (Config.shipped : Config ℝ).warmUp ∧
    (0 : ℝ) ≤ (Config.shipped : Config ℝ).runTime ∧
    (0 : ℝ) < (Config.shipped : Config ℝ).sampleFs ∧
    0 < (Config.shipped : Config ℝ).samplesPerChan ∧
    (Device.silent : Device ℝ).noError ∧
    (main Real.sqrt Real.sin Config.shipped Device.silent).data.u.length =
      (Nat.ceil ((Config.shipped : Config ℝ).warmUp * (Config.shipped : Config ℝ).sampleFs
          / ((Config.shipped : Config ℝ).samplesPerChan : ℝ))
        + Nat.ceil ((Config.shipped : Config ℝ).runTime * (Config.shipped : Config ℝ).sampleFs
          / ((Config.shipped : Config ℝ).samplesPerChan : ℝ)))
      * (Config.shipped : Config ℝ).samplesPerChan :=
  ⟨by norm_num [Config.shipped], by norm_num [Config.shipped], by norm_num [Config.shipped],
    by norm_num [Config.shipped], Device.silent_noError,
    (C6_record_length Config.shipped Device.silent (by norm_num [Config.shipped])
      (by norm_num [Config.shipped]) (by norm_num [Config.shipped])
      (by norm_num [Config.shipped]) Device.silent_noError).2.2.1⟩

/-! ## Warm-up isolation -/


/-- What the warm-up phase maintains: every recorded command is `0`, channel 1 of the write
buffer and of every buffer handed to the driver is `0`, the controller is untouched. -/
theorem warmUpSample_isolated (cfg : Config ℝ) (c0 : DefaultController ℝ) (i : ℕ)
    (hi : i < cfg.samplesPerChan) (s : MainState ℝ)
    (h : (∀ x ∈ s.data.u, x = 0) ∧ (∀ j, cfg.samplesPerChan ≤ j → s.write_origin j = 0) ∧
      (∀ b ∈ s.written, ∀ j, cfg.samplesPerChan ≤ j → b j = 0) ∧ s.controller = c0) :
    (∀ x ∈ (warmUpSample Real.sin cfg i s).data.u, x = 0) ∧
    (∀ j, cfg.samplesPerChan ≤ j → (warmUpSample Real.sin cfg i s).write_origin j = 0) ∧
    (∀ b ∈ (warmUpSample Real.sin cfg i s).written, ∀ j, cfg.samplesPerChan ≤ j → b j = 0) ∧
    (warmUpSample Real.sin cfg i s).controller = c0 := by
  obtain ⟨h1, h2, h3, h4⟩ := h
  refine ⟨?_, ?_, h3, h4⟩
  · intro x hx
    simp only [warmUpSample, List.mem_append, List.mem_singleton] at hx
    rcases hx with hx | hx
    · exact h1 x hx
    · exact hx
  · intro j hj
    simp only [warmUpSample]
    by_cases e : j = cfg.samplesPerChan + i
    · rw [e, Function.update_same]
    · rw [Function.update_noteq e, Function.update_noteq (by omega)]
      exact h2 j hj

theorem foldl_warmUpSample_isolated (cfg : Config ℝ) (c0 : DefaultController ℝ) (m : ℕ)
    (hm : m ≤ cfg.samplesPerChan) (s : MainState ℝ)
    (h : (∀ x ∈ s.data.u, x = 0) ∧ (∀ j, cfg.samplesPerChan ≤ j → s.write_origin j = 0) ∧
      (∀ b ∈ s.written, ∀ j, cfg.samplesPerChan ≤ j → b j = 0) ∧ s.controller = c0) :
    (∀ x ∈ ((List.range m).foldl (fun acc i => warmUpSample Real.sin cfg i acc) s).data.u,
      x = 0) ∧
    (∀ j, cfg.samplesPerChan ≤ j →
      ((List.range m).foldl (fun acc i => warmUpSample Real.sin cfg i acc) s).write_origin j
        = 0) ∧
    (∀ b ∈ ((List.range m).foldl (fun acc i => warmUpSample Real.sin cfg i acc) s).written,
      ∀ j, cfg.samplesPerChan ≤ j → b j = 0) ∧
    ((List.range m).foldl (fun acc i => warmUpSample Real.sin cfg i acc) s).controller = c0 := by
  induction m with
  | zero => exact h
  | succ m ih =>
    rw [List.range_succ, List.foldl_append]
    exact warmUpSample_isolated cfg c0 m (by omega) _ (ih (by omega))

theorem blockStep_warmUp_isolated (cfg : Config ℝ) (dev : Device ℝ)
    (c0 : DefaultController ℝ) (s : MainState ℝ)
    (h : (∀ x ∈ s.data.u, x = 0) ∧ (∀ j, cfg.samplesPerChan ≤ j → s.write_origin j = 0) ∧
      (∀ b ∈ s.written, ∀ j, cfg.samplesPerChan ≤ j → b j = 0) ∧ s.controller = c0) :
    (∀ x ∈ (blockStep cfg dev (warmUpSample Real.sin cfg) s).data.u, x = 0) ∧
    (∀ j, cfg.samplesPerChan ≤ j →
      (blockStep cfg dev (warmUpSample Real.sin cfg) s).write_origin j = 0) ∧
    (∀ b ∈ (blockStep cfg dev (warmUpSample Real.sin cfg) s).written,
      ∀ j, cfg.samplesPerChan ≤ j → b j = 0) ∧
    (blockStep cfg dev (warmUpSample Real.sin cfg) s).controller = c0 := by
  by_cases hf : DAQmxFailed s.error = true
  · rw [blockStep_of_failed cfg dev _ s hf]
    exact h
  · rw [blockStep_of_ok cfg dev _ s (by simpa using hf)]
    obtain ⟨g1, g2, g3, g4⟩ :=
      foldl_warmUpSample_isolated cfg c0 cfg.samplesPerChan (le_refl _) s h
    have hw : ∀ b ∈ (sampleLoop cfg (warmUpSample Real.sin cfg) s).written
        ++ [(sampleLoop cfg (warmUpSample Real.sin cfg) s).write_origin],
        ∀ j, cfg.samplesPerChan ≤ j → b j = 0 := by
      intro b hb j hj
      rcases List.mem_append.mp hb with hb | hb
      · exact g3 b hb j hj
      · rw [List.mem_singleton.mp hb]
        exact g2 j hj
    unfold blockTransfer
    simp only
    split
    · exact ⟨g1, g2, hw, g4⟩
    · split
      · exact ⟨g1, g2, hw, g4⟩
      · exact ⟨g1, g2, hw, g4⟩

/-- C5. Warm-up isolation in `main`: whatever statuses and samples the driver returns, when
the warm-up loop is left every recorded command `u` is exactly `0`, channel 1 of every
buffer handed to a block write (and of the current write buffer) is exactly `0`, and the
controller has not been invoked: it equals the freshly constructed controller, so the
active phase starts from that state. -/
theorem C5_warm_up_isolation (cfg : Config ℝ) (dev : Device ℝ) :
    (∀ x ∈ (afterWarmUp Real.sin cfg dev).data.u, x = 0) ∧
    (∀ b ∈ (afterWarmUp Real.sin cfg dev).written, ∀ i, i < cfg.samplesPerChan →
      b (cfg.samplesPerChan + i) = 0) ∧
    (∀ i, i < cfg.samplesPerChan →
      (afterWarmUp Real.sin cfg dev).write_origin (cfg.samplesPerChan + i) = 0) ∧
    (afterWarmUp Real.sin cfg dev).controller
      = DefaultController.construct (21.5 * 2 * PI) (-30.0) 0.0 (1.0 / cfg.sampleFs) 3.95 ∧
    (afterWarmUp Real.sin cfg dev).controller.w = (fun _ => 0) ∧
    (afterWarmUp Real.sin cfg dev).controller.out = 0 ∧
    (afterWarmUp Real.sin cfg dev).controller.tw = 0 ∧
    main Real.sqrt Real.sin cfg dev =
      (if DAQmxFailed (afterWarmUp Real.sin cfg dev).error then afterWarmUp Real.sin cfg dev
       else activePhase Real.sqrt Real.sin cfg dev (afterWarmUp Real.sin cfg dev)) := by
  have key : (∀ x ∈ (afterWarmUp Real.sin cfg dev).data.u, x = 0) ∧
      (∀ j, cfg.samplesPerChan ≤ j → (afterWarmUp Real.sin cfg dev).write_origin j = 0) ∧
      (∀ b ∈ (afterWarmUp Real.sin cfg dev).written, ∀ j, cfg.samplesPerChan ≤ j → b j = 0) ∧
      (afterWarmUp Real.sin cfg dev).controller =
        DefaultController.construct (21.5 * 2 * PI) (-30.0) 0.0 (1.0 / cfg.sampleFs) 3.95 := by
    have h0 : (∀ x ∈ ({ MainState.initial cfg with error := dev.setup } : MainState ℝ).data.u,
          x = 0) ∧
        (∀ j, cfg.samplesPerChan ≤ j →
          ({ MainState.initial cfg with error := dev.setup } : MainState ℝ).write_origin j = 0) ∧
        (∀ b ∈ ({ MainState.initial cfg with error := dev.setup } : MainState ℝ).written,
          ∀ j, cfg.samplesPerChan ≤ j → b j = 0) ∧
        ({ MainState.initial cfg with error := dev.setup } : MainState ℝ).controller =
          DefaultController.construct (21.5 * 2 * PI) (-30.0) 0.0 (1.0 / cfg.sampleFs) 3.95 :=
      ⟨by simp [MainState.initial], fun _ _ => rfl, by simp [MainState.initial], rfl⟩
    by_cases hf : DAQmxFailed dev.setup = true
    · simp only [afterWarmUp, hf, if_true]
      exact h0
    · have hf2 : DAQmxFailed dev.setup = false := by simpa using hf
      simp only [afterWarmUp, hf2, warmUpPhase]
      rw [blockLoop_eq_iterate cfg dev _ _ _ 0 _ (Nat.sub_zero _) hf2]
      generalize Nat.ceil (cfg.warmUp * cfg.sampleFs / (cfg.samplesPerChan : ℝ)) = W
      induction W with
      | zero => exact h0
      | succ W ih =>
        rw [Function.iterate_succ_apply']
        exact blockStep_warmUp_isolated cfg dev _ _ ih
  obtain ⟨k1, k2, k3, k4⟩ := key
  refine ⟨k1, fun b hb i _ => k3 b hb _ (Nat.le_add_right _ _),
    fun i _ => k2 _ (Nat.le_add_right _ _), k4, ?_, ?_, ?_, rfl⟩
  · rw [k4]
    funext i
    simp only [DefaultController.construct]
    by_cases e1 : i = 1
    · rw [e1, Function.update_same]
    · rw [Function.update_noteq e1]
      by_cases e0 : i = 0
      · rw [e0, Function.update_same]
      · rw [Function.update_noteq e0]
  · rw [k4]; rfl
  · rw [k4]; rfl

/-! ## One-block latency: the record of iteration `k` does not depend on the read of `k` -/


theorem blockTransfer_congr (cfg : Config ℝ) (dev dev' : Device ℝ) (s : MainState ℝ)
    (hw : dev.write s.blocks = dev'.write s.blocks)
    (hr : dev.read s.blocks = dev'.read s.blocks) :
    blockTransfer cfg dev s = blockTransfer cfg dev' s := by
  simp only [blockTransfer, hw, hr]

/-- The inner loop appends `samplesPerChan` entries to each recorded sequence. -/
theorem sampleLoop_extends (cfg : Config ℝ) (sample : Nat → MainState ℝ → MainState ℝ)
    (h : RecordsOne sample) (X : datapack_t ℝ → List ℝ)
    (hX : X = datapack_t.t ∨ X = datapack_t.y ∨ X = datapack_t.d ∨ X = datapack_t.u)
    (s : MainState ℝ) :
    ∃ l, l.length = cfg.samplesPerChan ∧ X (sampleLoop cfg sample s).data = X s.data ++ l := by
  obtain ⟨_, _, _, _, e5, et, ed, eu⟩ := foldl_sample sample h cfg.samplesPerChan s
  rcases hX with hX | hX | hX | hX
  · subst hX; exact et
  · subst hX; exact ⟨_, by simp, e5⟩
  · subst hX; exact ed
  · subst hX; exact eu

/-- A block step only appends to the recorded sequences. -/
theorem blockStep_extends (cfg : Config ℝ) (dev : Device ℝ)
    (sample : Nat → MainState ℝ → MainState ℝ) (h : RecordsOne sample)
    (X : datapack_t ℝ → List ℝ)
    (hX : X = datapack_t.t ∨ X = datapack_t.y ∨ X = datapack_t.d ∨ X = datapack_t.u)
    (s : MainState ℝ) :
    ∃ l, X (blockStep cfg dev sample s).data = X s.data ++ l := by
  by_cases hf : DAQmxFailed s.error = true
  · rw [blockStep_of_failed cfg dev _ s hf]
    exact ⟨[], by simp⟩
  · rw [blockStep_of_ok cfg dev _ s (by simpa using hf), blockTransfer_data]
    obtain ⟨l, _, hl⟩ := sampleLoop_extends cfg sample h X hX s
    exact ⟨l, hl⟩

/-- One block step of two runs on devices that agree on the outer iterations before `k`
preserves the relation `Lockstep`. -/
theorem blockStep_lockstep (cfg : Config ℝ) (dev dev' : Device ℝ) (k : ℕ)
    (hagree : ∀ j, j < k → dev.write j = dev'.write j ∧ dev.read j = dev'.read j)
    (sample : Nat → MainState ℝ → MainState ℝ) (h : RecordsOne sample)
    (X : datapack_t ℝ → List ℝ)
    (hX : X = datapack_t.t ∨ X = datapack_t.y ∨ X = datapack_t.d ∨ X = datapack_t.u)
    (s s' : MainState ℝ) (inv : Lockstep cfg k X s s') :
    Lockstep cfg k X (blockStep cfg dev sample s) (blockStep cfg dev' sample s') := by
  unfold Lockstep at inv ⊢
  rcases inv with ⟨hss, hcase⟩ | ⟨h1, h2, h3⟩
  · subst hss
    rcases hcase with hf | ⟨hb, hlen⟩
    · left
      rw [blockStep_of_failed cfg dev _ s hf, blockStep_of_failed cfg dev' _ s hf]
      exact ⟨rfl, Or.inl hf⟩
    · by_cases hf : DAQmxFailed s.error = true
      · left
        rw [blockStep_of_failed cfg dev _ s hf, blockStep_of_failed cfg dev' _ s hf]
        exact ⟨rfl, Or.inl hf⟩
      · have hok : DAQmxFailed s.error = false := by simpa using hf
        rw [blockStep_of_ok cfg dev _ s hok, blockStep_of_ok cfg dev' _ s hok]
        obtain ⟨e1, e2, _, _, _, _, _, _⟩ := foldl_sample sample h cfg.samplesPerChan s
        have hblocks : (sampleLoop cfg sample s).blocks = s.blocks := e2
        obtain ⟨l, hl, hle⟩ := sampleLoop_extends cfg sample h X hX s
        have hlen2 : (X (sampleLoop cfg sample s).data).length
            = (s.blocks + 1) * cfg.samplesPerChan := by
          rw [hle, List.length_append, hlen, hl]; ring
        rcases Nat.lt_or_eq_of_le hb with hlt | heq
        · left
          have hc := blockTransfer_congr cfg dev dev' (sampleLoop cfg sample s)
            (by rw [hblocks]; exact (hagree _ hlt).1) (by rw [hblocks]; exact (hagree _ hlt).2)
          refine ⟨hc, ?_⟩
          by_cases hf2 : DAQmxFailed (blockTransfer cfg dev (sampleLoop cfg sample s)).error
              = true
          · exact Or.inl hf2
          · right
            have hb2 : (blockTransfer cfg dev (sampleLoop cfg sample s)).blocks
                = s.blocks + 1 := by
              have hf3 := hf2
              unfold blockTransfer at hf3 ⊢
              simp only at hf3 ⊢
              split
              · rename_i hw
                simp [hw] at hf3
              · rename_i hw
                split
                · rename_i hr
                  simp [hw, hr] at hf3
                · simp [hblocks]
            rw [blockTransfer_data, hb2, hlen2]
            exact ⟨hlt, rfl⟩
        · right
          rw [blockTransfer_data, blockTransfer_data, hlen2, heq]
          exact ⟨le_refl _, le_refl _, rfl⟩
  · right
    obtain ⟨l, hl⟩ := blockStep_extends cfg dev sample h X hX s
    obtain ⟨l', hl'⟩ := blockStep_extends cfg dev' sample h X hX s'
    rw [hl, hl', List.take_append_of_le_length h1, List.take_append_of_le_length h2,
      List.length_append, List.length_append]
    exact ⟨by omega, by omega, h3⟩

theorem iterate_lockstep (cfg : Config ℝ) (dev dev' : Device ℝ) (k : ℕ)
    (hagree : ∀ j, j < k → dev.write j = dev'.write j ∧ dev.read j = dev'.read j)
    (sample : Nat → MainState ℝ → MainState ℝ) (h : RecordsOne sample)
    (X : datapack_t ℝ → List ℝ)
    (hX : X = datapack_t.t ∨ X = datapack_t.y ∨ X = datapack_t.d ∨ X = datapack_t.u)
    (m : ℕ) (s s' : MainState ℝ) (inv : Lockstep cfg k X s s') :
    Lockstep cfg k X ((blockStep cfg dev sample)^[m] s) ((blockStep cfg dev' sample)^[m] s') := by
  induction m with
  | zero => exact inv
  | succ m ih =>
    rw [Function.iterate_succ_apply', Function.iterate_succ_apply']
    exact blockStep_lockstep cfg dev dev' k hagree sample h X hX _ _ ih

/-- Two runs of `main` on devices that agree on set-up and on the outer iterations before
`k` record the same first `(k + 1) * samplesPerChan` entries in each sequence. -/
theorem main_lockstep (cfg : Config ℝ) (dev dev' : Device ℝ) (k : ℕ)
    (hsetup : dev.setup = dev'.setup)
    (hagree : ∀ j, j < k → dev.write j = dev'.write j ∧ dev.read j = dev'.read j)
    (X : datapack_t ℝ → List ℝ)
    (hX : X = datapack_t.t ∨ X = datapack_t.y ∨ X = datapack_t.d ∨ X = datapack_t.u) :
    (X (main Real.sqrt Real.sin cfg dev).data).take ((k + 1) * cfg.samplesPerChan)
      = (X (main Real.sqrt Real.sin cfg dev').data).take ((k + 1) * cfg.samplesPerChan) := by
  by_cases hf : DAQmxFailed dev.setup = true
  · have hf' : DAQmxFailed dev'.setup = true := by rw [← hsetup]; exact hf
    have e : main Real.sqrt Real.sin cfg dev = { MainState.initial cfg with error := dev.setup } := by
      simp [main, afterWarmUp, hf]
    have e' : main Real.sqrt Real.sin cfg dev'
        = { MainState.initial cfg with error := dev'.setup } := by
      simp [main, afterWarmUp, hf']
    rw [e, e', hsetup]
  · have hok : DAQmxFailed dev.setup = false := by simpa using hf
    have hok' : DAQmxFailed dev'.setup = false := by rw [← hsetup]; exact hok
    rw [main_eq_iterate cfg dev hok, main_eq_iterate cfg dev' hok']
    have h0 : Lockstep cfg k X ({ MainState.initial cfg with error := dev.setup } : MainState ℝ)
        ({ MainState.initial cfg with error := dev'.setup } : MainState ℝ) := by
      left
      refine ⟨by rw [hsetup], Or.inr ⟨Nat.zero_le _, ?_⟩⟩
      rcases hX with hX | hX | hX | hX <;> subst hX <;> simp [MainState.initial]
    have hW := iterate_lockstep cfg dev dev' k hagree _ (warmUpSample_recordsOne cfg) X hX
      (Nat.ceil (cfg.warmUp * cfg.sampleFs / (cfg.samplesPerChan : ℝ))) _ _ h0
    have hA := iterate_lockstep cfg dev dev' k hagree _ (activeSample_recordsOne cfg) X hX
      (Nat.ceil (cfg.runTime * cfg.sampleFs / (cfg.samplesPerChan : ℝ))) _ _ hW
    rcases hA with ⟨heq, _⟩ | ⟨_, _, h3⟩
    · rw [heq]
    · exact h3


/-- C7. One-block latency in `main`: number the outer iterations `j = 0, 1, 2, ...` across
both phases.  In a run without device error the measurement `y` recorded for sample `i` of
iteration `j` (the same value the active phase passes to the controller, namely
`read_origin[i] * 8000 - 1.7`) is `R[i] * 8000 - 1.7`,
where `R` is the block returned by the read at the end of iteration `j - 1`, and the
all-zero initial buffer for `j = 0`, which gives `-1.7`.  Consequently the records of
iteration `k` do not depend on the read at the end of iteration `k`: two runs on devices
that agree on set-up and on the iterations before `k` record the same first
`(k + 1) * samplesPerChan` entries of `y`, `u`, `d` and `t`. -/
theorem C7_one_block_latency (cfg : Config ℝ) (dev dev' : Device ℝ) (k : ℕ)
    (hdev : dev.noError) (hsetup : dev.setup = dev'.setup)
    (hagree : ∀ j, j < k → dev.write j = dev'.write j ∧ dev.read j = dev'.read j) :
    (∀ j i, j < Nat.ceil (cfg.warmUp * cfg.sampleFs / (cfg.samplesPerChan : ℝ))
          + Nat.ceil (cfg.runTime * cfg.sampleFs / (cfg.samplesPerChan : ℝ)) →
        i < cfg.samplesPerChan →
        (main Real.sqrt Real.sin cfg dev).data.y[j * cfg.samplesPerChan + i]?
          = some (lastBlock dev j i * 8000 - 1.7)) ∧
    (∀ i, lastBlock dev 0 i * 8000 - 1.7 = -1.7) ∧
    (∀ j i, lastBlock dev (j + 1) i = (dev.read j).2 i) ∧
    (∀ i s, (activeSample Real.sqrt Real.sin cfg i s).controller
        = (defaultController Real.sqrt s.controller (s.read_origin i * 8000 - 1.7)).1 ∧
      (activeSample Real.sqrt Real.sin cfg i s).data.y
        = s.data.y ++ [s.read_origin i * 8000 - 1.7]) ∧
    (main Real.sqrt Real.sin cfg dev).data.y.take ((k + 1) * cfg.samplesPerChan)
      = (main Real.sqrt Real.sin cfg dev').data.y.take ((k + 1) * cfg.samplesPerChan) ∧
    (main Real.sqrt Real.sin cfg dev).data.u.take ((k + 1) * cfg.samplesPerChan)
      = (main Real.sqrt Real.sin cfg dev').data.u.take ((k + 1) * cfg.samplesPerChan) ∧
    (main Real.sqrt Real.sin cfg dev).data.d.take ((k + 1) * cfg.samplesPerChan)
      = (main Real.sqrt Real.sin cfg dev').data.d.take ((k + 1) * cfg.samplesPerChan) ∧
    (main Real.sqrt Real.sin cfg dev).data.t.take ((k + 1) * cfg.samplesPerChan)
      = (main Real.sqrt Real.sin cfg dev').data.t.take ((k + 1) * cfg.samplesPerChan) := by
  refine ⟨?_, ?_, fun _ _ => rfl, fun _ _ => ⟨rfl, rfl⟩, ?_, ?_, ?_, ?_⟩
  · intro j i hj hi
    rw [(main_ok cfg dev hdev).1]
    exact getElem?_flatMap_blocks (fun j i => lastBlock dev j i * 8000 - 1.7) _ _ j i hj hi
  · intro i
    simp [lastBlock]
  · exact main_lockstep cfg dev dev' k hsetup hagree datapack_t.y (Or.inr (Or.inl rfl))
  · exact main_lockstep cfg dev dev' k hsetup hagree datapack_t.u (Or.inr (Or.inr (Or.inr rfl)))
  · exact main_lockstep cfg dev dev' k hsetup hagree datapack_t.d (Or.inr (Or.inr (Or.inl rfl)))
  · exact main_lockstep cfg dev dev' k hsetup hagree datapack_t.t (Or.inl rfl)

/-- C7, instance: the shipped configuration on the always-zero driver and on a driver whose
reads return the sample `1` from outer iteration 2 on; the records agree on the first
`3 * 100` entries of `u`. -/
theorem C7_one_block_latency_witness :
    (Device.silent : Device ℝ).noError ∧
    (Device.silent : Device ℝ).setup = (Device.silentUntil 2 1 : Device ℝ).setup ∧
    (∀ j, j < 2 →
      (Device.silent : Device ℝ).write j = (Device.silentUntil 2 1 : Device ℝ).write j ∧
      (Device.silent : Device ℝ).read j = (Device.silentUntil 2 1 : Device ℝ).read j) ∧
    (Device.silent : Device ℝ).read 2 ≠ (Device.silentUntil 2 1 : Device ℝ).read 2 ∧
    (main Real.sqrt Real.sin Config.shipped Device.silent).data.u.take
        ((2 + 1) * (Config.shipped : Config ℝ).samplesPerChan)
      = (main Real.sqrt Real.sin Config.shipped (Device.silentUntil 2 1)).data.u.take
        ((2 + 1) * (Config.shipped : Config ℝ).samplesPerChan) :=
  ⟨Device.silent_noError, rfl,
    fun j hj => ⟨rfl, by simp [Device.silent, Device.silentUntil, hj]⟩,
    by
      intro h
      have h2 := congrFun (congrArg Prod.snd h) 0
      simp [Device.silent, Device.silentUntil] at h2,
    (C7_one_block_latency Config.shipped Device.silent (Device.silentUntil 2 1) 2
      Device.silent_noError rfl
      (fun j hj => ⟨rfl, by simp [Device.silent, Device.silentUntil, hj]⟩)).2.2.2.2.2.1⟩

/-! ## The disturbance formulas of the two drivers -/


/-- In `hardware_test/distRejTemplate.cpp` the two phases compute the same disturbance. -/
theorem active_d_eq_warmUp_d (cfg : Config ℝ) (t : ℝ) :
    active_d Real.sin cfg t = warmUp_d Real.sin cfg t := rfl

end distRejTemplate

namespace second_order_simulator

/-- C9, the defect in `simulation/second_order_simulator.cpp`: at the second sample time
`t = 1/25000`, with `dist_freq = 35`, `M_2_PI = 2/π` and `PI = 3.1415926535`, the warm-up
loop computes `2 sin(t * 35 * (2/π))` and the active loop `2 sin(t * 35 * 2 * PI)`, and the
two values differ (the warm-up value is the smaller one).  In
`hardware_test/distRejTemplate.cpp` the two phases compute the same value at every time. -/
theorem C9_simulator_disturbance_differs :
    warmUp_d Real.sin (2 / Real.pi) 35 (1 / 25000)
      < active_d Real.sin (distRejTemplate.PI : ℝ) 35 (1 / 25000) ∧
    warmUp_d Real.sin (2 / Real.pi) 35 (1 / 25000)
      ≠ active_d Real.sin (distRejTemplate.PI : ℝ) 35 (1 / 25000) ∧
    (∀ (cfg : distRejTemplate.Config ℝ) (t : ℝ),
      distRejTemplate.active_d Real.sin cfg t = distRejTemplate.warmUp_d Real.sin cfg t) := by
  have hpi3 : (3 : ℝ) < Real.pi := Real.pi_gt_three
  have hpi4 : Real.pi ≤ 4 := Real.pi_le_four
  have ha : (1 / 25000 : ℝ) * 35 * (2 / Real.pi) < 1 / 25000 * 35 * 2 * distRejTemplate.PI := by
    have h1 : (2 : ℝ) / Real.pi < 1 := by
      rw [div_lt_one (by linarith)]
      linarith
    have h2 : (1 / 25000 : ℝ) * 35 * (2 / Real.pi) < 1 / 25000 * 35 * 1 := by
      apply mul_lt_mul_of_pos_left h1
      norm_num
    have h3 : (1 / 25000 : ℝ) * 35 * 1 ≤ 1 / 25000 * 35 * 2 * distRejTemplate.PI := by
      norm_num [distRejTemplate.PI]
    linarith
  have hlo : -(Real.pi / 2) ≤ (1 / 25000 : ℝ) * 35 * (2 / Real.pi) := by
    have : (0 : ℝ) ≤ 1 / 25000 * 35 * (2 / Real.pi) := by positivity
    linarith
  have hhi : (1 / 25000 : ℝ) * 35 * 2 * distRejTemplate.PI ≤ Real.pi / 2 := by
    have : (1 / 25000 : ℝ) * 35 * 2 * distRejTemplate.PI ≤ 1 := by
      norm_num [distRejTemplate.PI]
    linarith
  have hs := Real.sin_lt_sin_of_lt_of_le_pi_div_two hlo hhi ha
  have hlt : warmUp_d Real.sin (2 / Real.pi) 35 (1 / 25000)
      < active_d Real.sin (distRejTemplate.PI : ℝ) 35 (1 / 25000) := by
    simp only [warmUp_d, active_d]
    linarith
  exact ⟨hlt, ne_of_lt hlt, fun _ _ => rfl⟩

end second_order_simulator
